import Mathlib

/-!
Verification development for the BrandGuard brand-compliance core.

The definitions below are shallow embeddings of the TypeScript source:
  - hex color normalization (toHex6, src/ui/utils/colors.ts),
  - WCAG contrast computation (calculateContrastRatio, colors.ts),
  - font matching (isFontAllowed, brandConfig.ts),
  - nearest brand color (findNearestBrandColor, brandConfig.ts),
  - brand kit schema validation (validateBrandKit, hooks/useBrandKit.ts),
  - the audit element filter, health score, unfixable-contrast findings and
    color suggestion (App.tsx),
  - the Fix All / Undo All snapshot state machine (App.tsx).

Modelling conventions: JavaScript numbers are modelled as real numbers
(the sRGB gamma exponent 2.4 makes luminance irrational), strings as Lean
strings manipulated through their character lists, and JSON values as an
inductive type.  JS parseInt on hex strings is modelled as a greedy parse
of the valid hex prefix; the NaN that JS produces when no digit can be
parsed is modelled as Option-failure at the call sites where the source
discards NaN results.  toUpperCase is modelled on ASCII hex characters
(identity elsewhere); every comparison the source performs against an
uppercased string has a pure hex string on one side, so equality tests
agree with JS.
-/

/-! ## Character and string helpers (JS semantics) -/

def wsChar (c : Char) : Bool :=
  c = ' ' || c = '\t' || c = '\n' || c = '\r'

def trimChars (l : List Char) : List Char :=
  ((l.dropWhile (fun c => wsChar c)).reverse.dropWhile (fun c => wsChar c)).reverse

/-- JS String.replace with regex anchor for a leading hash: drops one leading hash. -/
def dropLeadingHash : List Char → List Char
  | '#' :: rest => rest
  | l => l

/-- JS String.replace with a plain one-character pattern: drops the first hash anywhere. -/
def removeFirstHash : List Char → List Char
  | [] => []
  | c :: rest => if c = '#' then rest else c :: removeFirstHash rest

def isHexDigitC (c : Char) : Bool :=
  decide (('0' ≤ c ∧ c ≤ '9') ∨ ('a' ≤ c ∧ c ≤ 'f') ∨ ('A' ≤ c ∧ c ≤ 'F'))

def hexDigitVal (c : Char) : ℕ :=
  if '0' ≤ c ∧ c ≤ '9' then c.toNat - 48
  else if 'a' ≤ c ∧ c ≤ 'f' then c.toNat - 87
  else if 'A' ≤ c ∧ c ≤ 'F' then c.toNat - 55
  else 0

/-- ASCII toUpperCase as the source uses it: only hex letters ever matter
(all uppercase comparisons in the source have a pure hex string on one side). -/
def jsUpperChar (c : Char) : Char :=
  if c = 'a' then 'A' else if c = 'b' then 'B' else if c = 'c' then 'C'
  else if c = 'd' then 'D' else if c = 'e' then 'E' else if c = 'f' then 'F' else c

def upperChars (l : List Char) : List Char := l.map jsUpperChar

def upperStr (s : String) : String := String.mk (upperChars s.data)

def lowerStr (s : String) : String := String.mk (s.data.map Char.toLower)

/-- Greedy valid-hex prefix, as JS parseInt consumes digits. -/
def greedyHex : List Char → List Char
  | [] => []
  | c :: rest => if isHexDigitC c then c :: greedyHex rest else []

def hexNat (l : List Char) : ℕ := l.foldl (fun n c => 16 * n + hexDigitVal c) 0

/-- JS parseInt(s, 16) on the strings the source feeds it (leading whitespace
skipped, greedy hex prefix).  The NaN case (no leading digit) is modelled as 0
here; call sites that must discard NaN results use jsParseChunk instead. -/
def parseIntHexN (l : List Char) : ℕ := hexNat (greedyHex (l.dropWhile (fun c => wsChar c)))

/-- JS parseInt that reports NaN (none) when the string starts with a non-digit. -/
def jsParseChunk (l : List Char) : Option ℕ :=
  match l with
  | [] => none
  | c :: _ => if isHexDigitC c then some (hexNat (greedyHex l)) else none

/-! ## ColorCodec: toHex6 (src/ui/utils/colors.ts) -/

/-- Normalize a hex color to 6-digit `#RRGGBB` form; translation of toHex6. -/
def toHex6 : Option String → Option String
  | none => none
  | some hex =>
    let clean := dropLeadingHash (trimChars hex.data)
    if clean.isEmpty then none
    else if clean.all isHexDigitC then
      if clean.length = 6 then some (String.mk ('#' :: upperChars clean))
      else if clean.length = 8 then
        let firstSix := clean.take 6
        let middleSix := (clean.drop 2).take 6
        if upperChars firstSix = ("000000").data then
          some (String.mk ('#' :: upperChars middleSix))
        else some (String.mk ('#' :: upperChars firstSix))
      else none
    else none

/-- Amended-specification version of toHex6, written from the (corrected) spec
words: after trimming and removing an optional leading hash, exactly the
all-hex bodies of length 6 (from `#RRGGBB` / `RRGGBB`) and length 8 are
accepted and every other input (including 3-digit `#RGB`) is rejected; for an
accepted 8-digit body, when the leading six digits are all zero the trailing
six digits (drop 2) form the result, otherwise the leading six do. -/
def toHex6Spec : Option String → Option String
  | none => none
  | some hex =>
    let body := dropLeadingHash (trimChars hex.data)
    if body.all isHexDigitC then
      if body.length = 6 then some (String.mk ('#' :: upperChars body))
      else if body.length = 8 then
        if (body.take 6).all (fun c => c = '0') then
          some (String.mk ('#' :: upperChars (body.drop 2)))
        else some (String.mk ('#' :: upperChars (body.take 6)))
      else none
    else none

/-! ## Font matching (src/brandConfig.ts) -/

/-- normalizeFontName: null/undefined/empty give null, otherwise trim + lowercase. -/
def normalizeFontName : Option String → Option String
  | none => none
  | some s => if s = ("") then none else some (String.mk ((trimChars s.data).map Char.toLower))

def leadsWith : List Char → List Char → Bool
  | [], _ => true
  | _ :: _, [] => false
  | p :: ps, c :: cs => p = c && leadsWith ps cs

/-- isFontAllowed: exact case-insensitive match against an allowed font, or a
style-variant with separator space / hyphen / underscore. -/
def isFontAllowed (fontName : Option String) (fontsToCheck : List String) : Bool :=
  match normalizeFontName fontName with
  | none => true
  | some normalized =>
    if normalized = ("") then true
    else fontsToCheck.any fun allowedFont =>
      match normalizeFontName (some allowedFont) with
      | none => false
      | some allowedNormalized =>
        if allowedNormalized = ("") then false
        else normalized = allowedNormalized
          || leadsWith (allowedNormalized.data ++ [' ']) normalized.data
          || leadsWith (allowedNormalized.data ++ ['-']) normalized.data
          || leadsWith (allowedNormalized.data ++ ['_']) normalized.data

/-! ## JSON values and brand-kit validation (src/hooks/useBrandKit.ts) -/

inductive JVal where
  | jnull : JVal
  | jbool : Bool → JVal
  | jnum : ℚ → JVal
  | jstr : String → JVal
  | jarr : List JVal → JVal
  | jobj : List (String × JVal) → JVal

/-- JS typeof (null and arrays are "object"). -/
def typeofStr : JVal → String
  | .jnull => "object"
  | .jbool _ => "boolean"
  | .jnum _ => "number"
  | .jstr _ => "string"
  | .jarr _ => "object"
  | .jobj _ => "object"

/-- Truthy objects of typeof "object": non-null objects and arrays. -/
def isObjectLike : JVal → Bool
  | .jarr _ => true
  | .jobj _ => true
  | _ => false

def jlookup : List (String × JVal) → String → Option JVal
  | [], _ => none
  | (k, v) :: rest, key => if k = key then some v else jlookup rest key

/-- Property access on a JS value; arrays and primitives have none of the
named properties the validator reads. -/
def jget : JVal → String → Option JVal
  | .jobj fields, k => jlookup fields k
  | _, _ => none

/-- JS truthiness of an optional property value. -/
def jTruthy : Option JVal → Bool
  | none => false
  | some .jnull => false
  | some (.jbool b) => b
  | some (.jnum q) => if q = 0 then false else true
  | some (.jstr s) => if s = ("") then false else true
  | some (.jarr _) => true
  | some (.jobj _) => true

def assocIndex : List (String × ℕ) → String → Option ℕ
  | [], _ => none
  | (k, v) :: rest, key => if k = key then some v else assocIndex rest key

def containsStr (l : List String) (s : String) : Bool :=
  l.any fun x => decide (x = s)

def AVAILABLE_FONTS : List String :=
  [("Arial"), ("Georgia"), ("Courier"), ("Courier New"), ("Source Sans 3"),
   ("Lato"), ("Times New Roman"), ("Verdana"), ("Tahoma"), ("Helvetica"),
   ("Comic Sans MS"), ("Impact"), ("Trebuchet MS"), ("Lucida Sans Unicode"),
   ("Palatino"), ("Garamond"), ("Bookman"), ("Avant Garde"), ("Century Gothic"),
   ("Futura")]

def knownAvailableFonts : List String :=
  AVAILABLE_FONTS.map (fun f => String.mk ((trimChars f.data).map Char.toLower))

def normalizeFontNameForValidation (fontName : String) : String :=
  String.mk ((trimChars fontName.data).map Char.toLower)

/-- isValidHexColor: starts with a hash followed by 3 or 6 hex digits. -/
def isValidHexColor (color : String) : Bool :=
  let trimmed := trimChars color.data
  match trimmed with
  | '#' :: hexPart =>
    (hexPart.length = 3 || hexPart.length = 6) && hexPart.all isHexDigitC
  | _ => false

/-- normalizeHexColor: uppercase, 3-digit expanded to 6-digit. -/
def normalizeHexColor (color : String) : Option String :=
  if isValidHexColor color then
    let trimmed := upperChars (trimChars color.data)
    let hexPart := trimmed.drop 1
    if hexPart.length = 3 then
      some (String.mk ('#' :: hexPart.flatMap (fun c => [c, c])))
    else some (String.mk trimmed)
  else none

structure ValidationResult where
  valid : Bool
  errors : List (String × String)
deriving DecidableEq

def colorFieldPath (index : ℕ) : String :=
  ("allowedColors[") ++ toString index ++ ("]")

def fontFieldPath (index : ℕ) : String :=
  ("allowedFonts[") ++ toString index ++ ("]")

/-- Per-color validation step: at most one error per entry, plus the
first-index map used for duplicate detection. -/
def colorStep (acc : List (String × String) × List (String × ℕ)) (ix : ℕ × JVal) :
    List (String × String) × List (String × ℕ) :=
  let errs := acc.1
  let seen := acc.2
  let index := ix.1
  match ix.2 with
  | .jnull => (errs ++ [(colorFieldPath index, ("Color cannot be null or undefined"))], seen)
  | .jstr color =>
    let trimmedColor := String.mk (trimChars color.data)
    if trimmedColor = ("") then
      (errs ++ [(colorFieldPath index, ("Color cannot be an empty string"))], seen)
    else if isValidHexColor trimmedColor then
      match normalizeHexColor trimmedColor with
      | some normalized =>
        match assocIndex seen normalized with
        | some firstIndex =>
          (errs ++ [(colorFieldPath index,
            ("Color \"") ++ color ++ ("\" is a duplicate of color at position ") ++
            toString firstIndex ++ (" (both normalize to \"") ++ normalized ++ ("\")"))], seen)
        | none => (errs, seen ++ [(normalized, index)])
      | none => (errs, seen)
    else
      match trimmedColor.data with
      | '#' :: _ =>
        if trimmedColor.length < 4 ∨ trimmedColor.length > 7 then
          (errs ++ [(colorFieldPath index,
            ("Color \"") ++ color ++
            ("\" is invalid: must be 3 or 6 hex digits after \"#\" (e.g., \"#FF0000\" or \"#F00\")"))], seen)
        else if !((trimmedColor.data.drop 1).all isHexDigitC) then
          (errs ++ [(colorFieldPath index,
            ("Color \"") ++ color ++
            ("\" is invalid: contains invalid hex characters. Only 0-9 and A-F are allowed"))], seen)
        else
          (errs ++ [(colorFieldPath index,
            ("Color \"") ++ color ++
            ("\" is not a valid hex color (e.g., \"#FF0000\" or \"#F00\")"))], seen)
      | _ =>
        (errs ++ [(colorFieldPath index,
          ("Color \"") ++ color ++
          ("\" is invalid: must start with \"#\" (e.g., \"#FF0000\" or \"#F00\")"))], seen)
  | other =>
    (errs ++ [(colorFieldPath index,
      ("Color must be a string, got ") ++ typeofStr other)], seen)

/-- Per-font validation step: at most one error per entry, plus the
case-insensitive seen set used for duplicate detection. -/
def fontStep (acc : List (String × String) × List String) (ix : ℕ × JVal) :
    List (String × String) × List String :=
  let errs := acc.1
  let seenFonts := acc.2
  let index := ix.1
  match ix.2 with
  | .jnull => (errs ++ [(fontFieldPath index, ("Font cannot be null or undefined"))], seenFonts)
  | .jstr font =>
    let trimmedFont := String.mk (trimChars font.data)
    if trimmedFont = ("") then
      (errs ++ [(fontFieldPath index, ("Font cannot be an empty string"))], seenFonts)
    else
      let normalizedFont := normalizeFontNameForValidation trimmedFont
      if containsStr seenFonts normalizedFont then
        (errs ++ [(fontFieldPath index,
          ("Font \"") ++ font ++
          ("\" is a duplicate (case-insensitive match with another font in the list)"))], seenFonts)
      else
        let seenFonts' := seenFonts ++ [normalizedFont]
        if !(containsStr knownAvailableFonts normalizedFont) then
          (errs ++ [(fontFieldPath index,
            ("Font \"") ++ font ++
            ("\" is not available in Adobe Express. Available fonts include: Arial, Georgia, Courier, Courier New, Source Sans 3, Lato, Times New Roman, Verdana, Tahoma, Helvetica, Comic Sans MS, Impact, Trebuchet MS, Lucida Sans Unicode, Palatino, Garamond, Bookman, Avant Garde, Century Gothic, Futura"))], seenFonts')
        else (errs, seenFonts')
  | other =>
    (errs ++ [(fontFieldPath index,
      ("Font must be a string, got ") ++ typeofStr other)], seenFonts)

/-- Translation of validateBrandKit. -/
def validateBrandKit (kit : JVal) : ValidationResult :=
  if !(isObjectLike kit) then
    ⟨false, [(("root"), ("Brand kit must be a valid JSON object"))]⟩
  else
    let nameField := jget kit ("name")
    let nameErrs : List (String × String) :=
      if !(jTruthy nameField) then
        [(("name"), ("Brand kit must have a non-empty name"))]
      else
        match nameField with
        | some (.jstr s) =>
          if trimChars s.data = [] then
            [(("name"), ("Brand kit must have a non-empty name"))]
          else []
        | _ => [(("name"), ("Brand kit must have a non-empty name"))]
    let colorErrs : List (String × String) :=
      match jget kit ("allowedColors") with
      | some (.jarr colors) =>
        if colors.isEmpty then
          [(("allowedColors"), ("allowedColors must contain at least one color"))]
        else (colors.enum.foldl colorStep ([], [])).1
      | _ => [(("allowedColors"), ("allowedColors must be an array"))]
    let fontErrs : List (String × String) :=
      match jget kit ("allowedFonts") with
      | some (.jarr fonts) =>
        if fonts.isEmpty then
          [(("allowedFonts"), ("allowedFonts must contain at least one font"))]
        else (fonts.enum.foldl fontStep ([], [])).1
      | _ => [(("allowedFonts"), ("allowedFonts must be an array"))]
    let accErrs : List (String × String) :=
      match jget kit ("accessibility") with
      | none => [(("accessibility"), ("accessibility must be an object"))]
      | some accV =>
        if !(jTruthy (some accV)) || !(decide (typeofStr accV = ("object"))) then
          [(("accessibility"), ("accessibility must be an object"))]
        else
          match jget accV ("minContrast") with
          | some (.jnum q) =>
            if q < 0 ∨ q > 21 then
              [(("accessibility.minContrast"), ("minContrast must be between 0 and 21"))]
            else []
          | _ => [(("accessibility.minContrast"), ("minContrast must be a number"))]
    let errors := nameErrs ++ colorErrs ++ fontErrs ++ accErrs
    ⟨errors.isEmpty, errors⟩

/-! ## Data model -/

structure ScannedElement where
  id : String
  type : String
  fillColor : Option String
  containerFillColor : Option String
  fontName : Option String
  textContent : Option String
deriving DecidableEq

/-- The active brand specification as the audit code reads it
(accessibility.minContrast flattened to a field). -/
structure BrandKit where
  name : String
  allowedColors : List String
  allowedFonts : List String
  minContrast : ℝ

/-! ## hexToRgb and findNearestBrandColor -/

/-- hexToRgb from colors.ts: parseInt then 32-bit shifts/masks. -/
def hexToRgb (s : String) : ℕ × ℕ × ℕ :=
  let n := parseIntHexN (removeFirstHash s.data) % 2 ^ 32
  (n / 2 ^ 16 % 256, n / 2 ^ 8 % 256, n % 256)

/-- Internal normalize of findNearestBrandColor (brandConfig.ts): trim, drop
a leading hash, expand 3-digit, accept length 6 or 8 and keep the first six
characters uppercased. -/
def nbNormalize (hex : String) : Option String :=
  let s1 := dropLeadingHash (trimChars hex.data)
  let s2 := if s1.length = 3 then s1.flatMap (fun c => [c, c]) else s1
  if s2.length = 6 ∨ s2.length = 8 then some (String.mk (upperChars (s2.take 6)))
  else none

/-- Internal hexToRgb of findNearestBrandColor: parseInt on the three 2-char
slices; a slice starting with a non-hex character is NaN in JS, which makes
the whole candidate unusable — modelled as none. -/
def nbHexToRgb (hex : String) : Option (ℕ × ℕ × ℕ) :=
  match nbNormalize hex with
  | none => none
  | some n6 =>
    match jsParseChunk (n6.data.take 2), jsParseChunk ((n6.data.drop 2).take 2),
          jsParseChunk ((n6.data.drop 4).take 2) with
    | some r, some g, some b => some (r, g, b)
    | _, _, _ => none

/-- One candidate step of the findNearestBrandColor loop: candidates whose
parse fails (NaN distance) never update the best entry; otherwise strict
squared-distance improvement wins. -/
def nbStep (t : ℕ × ℕ × ℕ) (best : Option (String × ℤ)) (candidate : String) :
    Option (String × ℤ) :=
  match nbHexToRgb candidate with
  | none => best
  | some c =>
    let dr : ℤ := (c.1 : ℤ) - (t.1 : ℤ)
    let dg : ℤ := (c.2.1 : ℤ) - (t.2.1 : ℤ)
    let db : ℤ := (c.2.2 : ℤ) - (t.2.2 : ℤ)
    let dist2 := dr * dr + dg * dg + db * db
    match best with
    | none => some (candidate, dist2)
    | some (_, bestDist) =>
      if dist2 < bestDist then some (candidate, dist2) else best

/-- findNearestBrandColor: nearest allowed color by squared RGB distance,
strict improvement only (first minimum wins). -/
def findNearestBrandColor (kit : BrandKit) (inputHex : Option String) : Option String :=
  match inputHex with
  | none => none
  | some ih =>
    if ih = ("") ∨ kit.allowedColors = [] then none
    else
      match nbHexToRgb ih with
      | none => none
      | some t =>
        (kit.allowedColors.foldl (nbStep t) none).map (fun p => p.1)

/-! ## ContrastEngine (colors.ts): luminance and contrast ratio over ℝ -/

noncomputable section

open scoped Classical

/-- sRGB channel linearization. -/
def toLinear (v : ℕ) : ℝ :=
  let sRGB : ℝ := (v : ℝ) / 255
  if sRGB ≤ 0.03928 then sRGB / 12.92 else ((sRGB + 0.055) / 1.055) ^ (2.4 : ℝ)

def getLuminance (r g b : ℕ) : ℝ :=
  0.2126 * toLinear r + 0.7152 * toLinear g + 0.0722 * toLinear b

def luminanceOf (hex : String) : ℝ :=
  getLuminance (hexToRgb hex).1 (hexToRgb hex).2.1 (hexToRgb hex).2.2

/-- WCAG contrast ratio between two hex colors. -/
def contrastRatioVal (hex1 hex2 : String) : ℝ :=
  (max (luminanceOf hex1) (luminanceOf hex2) + 0.05) /
    (min (luminanceOf hex1) (luminanceOf hex2) + 0.05)

structure COpts where
  largeText : Prop
  nonText : Prop
  reportAAA : Prop

structure ContrastResult where
  ratio : ℝ
  passesAA : Prop
  passesAAA : Option Prop
  requiredAA : ℝ
  requiredAAA : Option ℝ

/-- Translation of calculateContrastRatio. -/
def calculateContrastRatio (hex1 hex2 : String) (o : COpts) : ContrastResult :=
  let contrastRatio := contrastRatioVal hex1 hex2
  let requiredAA : ℝ := if o.largeText ∨ o.nonText then 3.0 else 4.5
  if o.reportAAA then
    let requiredAAA : ℝ := if o.largeText then 4.5 else 7.0
    { ratio := contrastRatio
      passesAA := contrastRatio ≥ requiredAA
      passesAAA := some (contrastRatio ≥ requiredAAA)
      requiredAA := requiredAA
      requiredAAA := some requiredAAA }
  else
    { ratio := contrastRatio
      passesAA := contrastRatio ≥ requiredAA
      passesAAA := none
      requiredAA := requiredAA
      requiredAAA := none }

/-- Euclidean RGB distance (colorDistance in colors.ts). -/
def colorDistance (hex1 hex2 : String) : ℝ :=
  let a := hexToRgb hex1
  let b := hexToRgb hex2
  let dr : ℝ := (a.1 : ℝ) - (b.1 : ℝ)
  let dg : ℝ := (a.2.1 : ℝ) - (b.2.1 : ℝ)
  let db : ℝ := (a.2.2 : ℝ) - (b.2.2 : ℝ)
  Real.sqrt (dr * dr + dg * dg + db * db)

/-! ## Audit logic (App.tsx) -/

/-- JS slice(0, 7). -/
def takeStr (n : ℕ) (s : String) : String := String.mk (s.data.take n)

/-- The effective required ratio the audit and the suggestion engine use:
large-text floors for text elements (AAA 4.5 / AA 3.0), the brand kit's
minContrast otherwise. -/
def requiredFor (kit : BrandKit) (isText : Prop) : ℝ :=
  if isText then (if kit.minContrast ≥ 7.0 then 4.5 else 3.0) else kit.minContrast

/-- Ratio of a normalized color against a background, as the audit obtains it
from calculateContrastRatio with only largeText set. -/
def ratioAgainst (bgHex : String) (isText : Prop) (hex : String) : ℝ :=
  (calculateContrastRatio hex bgHex ⟨isText, False, False⟩).ratio

/-- The contrast compliance test shared by the audit filter, the unfixable
scan and the suggestion engine: AAA when minContrast ≥ 7.0, AA otherwise. -/
def contrastCompliant (kit : BrandKit) (currentHex bgHex : String) (isText : Prop) : Prop :=
  let isAAA := kit.minContrast ≥ 7.0
  let res := calculateContrastRatio currentHex bgHex ⟨isText, False, isAAA⟩
  if isAAA then res.passesAAA.getD False else res.passesAA

/-- Palette membership test of the audit: raw allowed color uppercased equals
the normalized current color uppercased. -/
def isBrandCompliantB (kit : BrandKit) (currentHex : String) : Bool :=
  kit.allowedColors.any fun brandHex => decide (upperStr brandHex = upperStr currentHex)

/-- The hasBetterBrandColor scan of the audit filter, as the source computes
it with Array.some. -/
def hasBetterBrandColorB (kit : BrandKit) (currentHex bgHex : String) (isText : Prop)
    (currentRatio : ℝ) : Bool :=
  kit.allowedColors.any fun brandHex =>
    match toHex6 (some brandHex) with
    | none => false
    | some normalizedBrand =>
      if upperStr normalizedBrand = upperStr currentHex then false
      else if ratioAgainst bgHex isText normalizedBrand ≥ requiredFor kit isText ∨
              ratioAgainst bgHex isText normalizedBrand > currentRatio + 0.5 then true
      else false

/-- Specification-side reading of hasBetterBrandColor: some other allowed
color reaches the required ratio or materially exceeds the current ratio. -/
def HasBetterBrandColor (kit : BrandKit) (currentHex bgHex : String) (isText : Prop)
    (currentRatio : ℝ) : Prop :=
  ∃ brandHex ∈ kit.allowedColors, ∃ n, toHex6 (some brandHex) = some n ∧
    upperStr n ≠ upperStr currentHex ∧
    (ratioAgainst bgHex isText n ≥ requiredFor kit isText ∨
      ratioAgainst bgHex isText n > currentRatio + 0.5)

/-- The per-element violation filter of handleAudit. -/
def hasViolation (kit : BrandKit) (el : ScannedElement) : Bool :=
  let colorViolation : Bool :=
    match el.fillColor with
    | none => false
    | some f =>
      match toHex6 (some f) with
      | none => false
      | some hexColor =>
        let currentHex := takeStr 7 hexColor
        let isBrandCompliant := isBrandCompliantB kit currentHex
        let contrastViolation : Bool :=
          match el.containerFillColor with
          | none => false
          | some bg =>
            match toHex6 (some bg) with
            | none => false
            | some bgHex =>
              if contrastCompliant kit currentHex bgHex (el.type = ("Text")) then false
              else if isBrandCompliant then
                hasBetterBrandColorB kit currentHex bgHex (el.type = ("Text"))
                  (contrastRatioVal currentHex bgHex)
              else true
        !isBrandCompliant || contrastViolation
  let fontViolation : Bool :=
    match el.fontName with
    | none => false
    | some fn => !(isFontAllowed (some fn) kit.allowedFonts)
  colorViolation || fontViolation

def badElements (kit : BrandKit) (results : List ScannedElement) : List ScannedElement :=
  results.filter fun el => hasViolation kit el

/-- Health score from handleAudit: rounded share of clean elements, 100 when
nothing was scanned. -/
def auditHealthScore (kit : BrandKit) (results : List ScannedElement) : ℤ :=
  if 0 < results.length then
    round ((((results.length : ℚ) - ((badElements kit results).length : ℚ)) /
      (results.length : ℚ)) * 100)
  else 100

/-! ## Unfixable-contrast findings (handleAudit in App.tsx) -/

structure UnfixableContrastWarning where
  element : ScannedElement
  currentRatio : ℝ
  bestPossibleRatio : ℝ
  bestBrandColor : String
  requiredRatio : ℝ
  wcagLevel : String
  isCurrentBest : Prop

/-- The best-contrast scan over all brand colors: starts from ratio 0 and the
first allowed color, strict improvement only. -/
def bestBrand (kit : BrandKit) (bgHex : String) (isText : Prop) : ℝ × String :=
  kit.allowedColors.foldl (fun best brandHex =>
    match toHex6 (some brandHex) with
    | none => best
    | some normalizedBrand =>
      if best.1 < ratioAgainst bgHex isText normalizedBrand then
        (ratioAgainst bgHex isText normalizedBrand, brandHex)
      else best) (0, kit.allowedColors.headI)

/-- One iteration of the unfixable-contrast loop of handleAudit. -/
def unfixableFor (kit : BrandKit) (el : ScannedElement) : Option UnfixableContrastWarning :=
  match el.fillColor, el.containerFillColor with
  | some f, some bgRaw =>
    match toHex6 (some f), toHex6 (some bgRaw) with
    | some hexColor, some bgHex =>
      let currentHex := takeStr 7 hexColor
      let isText : Prop := el.type = ("Text")
      let isAAA := kit.minContrast ≥ 7.0
      let wcagLevel := if isAAA then ("AAA") else ("AA")
      let requiredRatio := requiredFor kit isText
      if isBrandCompliantB kit currentHex = true ∧
          ¬ contrastCompliant kit currentHex bgHex isText then
        let best := bestBrand kit bgHex isText
        if best.1 < requiredRatio then
          some
            { element := el
              currentRatio := contrastRatioVal currentHex bgHex
              bestPossibleRatio := best.1
              bestBrandColor := best.2
              requiredRatio := requiredRatio
              wcagLevel := wcagLevel
              isCurrentBest :=
                match toHex6 (some best.2) with
                | some bn => upperStr bn = upperStr currentHex
                | none => False }
        else none
      else none
    | _, _ => none
  | _, _ => none

def findUnfixable (kit : BrandKit) (results : List ScannedElement) :
    List UnfixableContrastWarning :=
  results.filterMap fun el => unfixableFor kit el

/-! ## FixSuggestionEngine: determineSuggestedColor (App.tsx) -/

/-- Contrast compliance as determineSuggestedColor computes it (true when
either color is unknown). -/
def suggestionCompliant (kit : BrandKit) (currentHex : String) (bg : Option String)
    (isText : Prop) : Prop :=
  match bg with
  | none => True
  | some b =>
    match toHex6 (some b) with
    | none => True
    | some bgHex => contrastCompliant kit currentHex bgHex isText

/-- The safe list: allowed colors, current color excluded, whose contrast
against the background meets the required ratio. -/
def safeListOf (kit : BrandKit) (currentHex bgHex : String) (isText : Prop) : List String :=
  kit.allowedColors.filter fun color =>
    match toHex6 (some color) with
    | none => false
    | some normalizedColor =>
      if upperStr normalizedColor = upperStr currentHex then false
      else if ratioAgainst bgHex isText normalizedColor ≥ requiredFor kit isText then true
      else false

/-- The fallback list: allowed colors with a valid normal form other than the
current color. -/
def fallbackListOf (kit : BrandKit) (currentHex : String) : List String :=
  kit.allowedColors.filter fun color =>
    match toHex6 (some color) with
    | none => false
    | some normalizedColor =>
      if upperStr normalizedColor = upperStr currentHex then false else true

/-- Contrast ratio a raw allowed color achieves against the background:
the ratio of its normal form, 0 when it has none (used to state the
fallback-branch optimality; fallback members always have a normal form). -/
def rawRatioOf (bgHex : String) (isText : Prop) (color : String) : ℝ :=
  match toHex6 (some color) with
  | some n => ratioAgainst bgHex isText n
  | none => 0

/-- Translation of determineSuggestedColor. -/
def determineSuggestedColor (kit : BrandKit) (el : ScannedElement) : String :=
  match toHex6 el.fillColor with
  | none => kit.allowedColors.headI
  | some currentHex =>
    let isText : Prop := el.type = ("Text")
    let nearest := (findNearestBrandColor kit (some currentHex)).getD kit.allowedColors.headI
    if ¬ suggestionCompliant kit currentHex el.containerFillColor isText then
      match el.containerFillColor with
      | some bg =>
        match toHex6 (some bg) with
        | some bgHex =>
          match safeListOf kit currentHex bgHex isText with
          | b :: rest =>
            rest.foldl (fun best color =>
              if colorDistance color currentHex < colorDistance best currentHex then color
              else best) b
          | [] =>
            match fallbackListOf kit currentHex with
            | b :: rest =>
              rest.foldl (fun best color =>
                match toHex6 (some best), toHex6 (some color) with
                | some bestNormalized, some colorNormalized =>
                  if ratioAgainst bgHex isText colorNormalized >
                      ratioAgainst bgHex isText bestNormalized then color
                  else best
                | _, _ => best) b
            | [] =>
              match kit.allowedColors.find? (fun color =>
                  match toHex6 (some color) with
                  | some n => !(decide (upperStr n = upperStr currentHex))
                  | none => false) with
              | some differentColor => differentColor
              | none => kit.allowedColors.headI
        | none => nearest
      | none => nearest
    else nearest

/-! ## SnapshotUndoManager: handleFixAll / handleUndoAll (App.tsx) -/

/-- Document state visible to the core: fill color and font per node id. -/
def Doc : Type := String → Option String × Option String

def setDocColor (d : Doc) (id : String) (c : String) : Doc :=
  fun i => if i = id then (some c, (d i).2) else d i

def setDocFont (d : Doc) (id : String) (f : String) : Doc :=
  fun i => if i = id then ((d i).1, some f) else d i

structure AppState where
  doc : Doc
  snap : Option (List (String × (Option String × Option String)))

/-- The snapshot captured by handleFixAll from the fresh scan. -/
def captureSnapshot (violations : List ScannedElement) (d : Doc) :
    List (String × (Option String × Option String)) :=
  violations.map fun v => (v.id, d v.id)

/-- handleFix applied through the document provider: always applies the
suggested color when truthy, applies the first allowed font when the
element's font fails the font check. -/
def applyFixTo (kit : BrandKit) (el : ScannedElement) (d : Doc) : Doc :=
  let suggestedColor := determineSuggestedColor kit el
  let d1 := if suggestedColor = ("") then d else setDocColor d el.id suggestedColor
  let needsFontFix :=
    match el.fontName with
    | none => false
    | some fn => !(isFontAllowed (some fn) kit.allowedFonts)
  let suggestedFont := kit.allowedFonts.headI
  if needsFontFix = true ∧ suggestedFont ≠ ("") then setDocFont d1 el.id suggestedFont
  else d1

/-- handleFixAll: a batch with no violations changes nothing (and keeps the
existing snapshot); otherwise the pre-fix state of every violating element is
captured before the fixes are applied. -/
def fixAll (kit : BrandKit) (violations : List ScannedElement) (s : AppState) : AppState :=
  if violations = [] then s
  else
    let snapshot := captureSnapshot violations s.doc
    { doc := violations.foldl (fun d el => applyFixTo kit el d) s.doc
      snap := some snapshot }

/-- Restoring one snapshot entry (handleUndoAll restores only truthy values). -/
def restoreEntry (d : Doc) (e : String × (Option String × Option String)) : Doc :=
  let d1 :=
    match e.2.1 with
    | some c => if c = ("") then d else setDocColor d e.1 c
    | none => d
  match e.2.2 with
  | some f => if f = ("") then d1 else setDocFont d1 e.1 f
  | none => d1

/-- handleUndoAll: no-op while idle, otherwise restore every recorded entry
and clear the snapshot. -/
def undoAll (s : AppState) : AppState :=
  match s.snap with
  | none => s
  | some entries => { doc := entries.foldl restoreEntry s.doc, snap := none }

def runBatches (kit : BrandKit) (s : AppState) (batches : List (List ScannedElement)) :
    AppState :=
  batches.foldl (fun st v => fixAll kit v st) s

end

/-! ## Concrete fixtures used by the examples in the claims -/

def kitMono : BrandKit := ⟨("Mono"), [("#000000"), ("#FFFFFF")], [("Arial")], 4.5⟩

def elGrey : ScannedElement :=
  ⟨("el1"), ("Shape"), some ("#EEEEEE"), some ("#FFFFFF"), none, none⟩

def kitGreys : BrandKit := ⟨("Greys"), [("#EEEEEE"), ("#000000")], [("Arial")], 4.5⟩

def kitSingle : BrandKit := ⟨("Grey"), [("#777777")], [("Arial")], 4.5⟩

def elSingle : ScannedElement :=
  ⟨("el7"), ("Shape"), some ("#777777"), some ("#777777"), none, none⟩

def mkPlainEl (i : String) : ScannedElement := ⟨i, ("Shape"), none, none, none, none⟩

def mkBadFontEl (i : String) : ScannedElement :=
  ⟨i, ("Text"), none, none, some ("Papyrus"), none⟩

def elementsTen : List ScannedElement :=
  [mkPlainEl ("n1"), mkPlainEl ("n2"), mkPlainEl ("n3"), mkBadFontEl ("n4"),
   mkPlainEl ("n5"), mkBadFontEl ("n6"), mkPlainEl ("n7"), mkPlainEl ("n8"),
   mkBadFontEl ("n9"), mkPlainEl ("n10")]

def kitFonts : BrandKit := ⟨("Fonts"), [("#000000")], [("Arial")], 4.5⟩

def zzKit : JVal :=
  .jobj [(("name"), .jstr ("Test")),
         (("allowedColors"), .jarr [.jstr ("#ZZZZZZ")]),
         (("allowedFonts"), .jarr [.jstr ("Arial")]),
         (("accessibility"), .jobj [(("minContrast"), .jnum 5)])]

def docPair : Doc := fun i =>
  if i = ("a") then (some ("#123456"), some ("Papyrus"))
  else if i = ("b") then (some ("#654321"), some ("Chalkboard"))
  else (none, none)

def elA : ScannedElement :=
  ⟨("a"), ("Text"), some ("#123456"), some ("#FFFFFF"), some ("Papyrus"), none⟩

def elB : ScannedElement :=
  ⟨("b"), ("Text"), some ("#654321"), some ("#FFFFFF"), some ("Chalkboard"), none⟩

open scoped Classical

/-! ## Helper lemmas -/

lemma jsUpperChar_eq_zero (c : Char) : jsUpperChar c = '0' ↔ c = '0' := by
  unfold jsUpperChar
  split_ifs with h1 h2 h3 h4 h5 h6
  · subst h1; decide
  · subst h2; decide
  · subst h3; decide
  · subst h4; decide
  · subst h5; decide
  · subst h6; decide
  · exact Iff.rfl

lemma upperChars_eq_replicate_zero (l : List Char) (k : ℕ) :
    upperChars l = List.replicate k '0' ↔ l = List.replicate k '0' := by
  induction l generalizing k with
  | nil => cases k <;> simp [upperChars]
  | cons c cs ih =>
    cases k with
    | zero => simp [upperChars]
    | succ k =>
      simp only [upperChars, List.map_cons, List.replicate_succ, List.cons.injEq]
      constructor
      · rintro ⟨h1, h2⟩
        exact ⟨(jsUpperChar_eq_zero c).mp h1, (ih k).mp h2⟩
      · rintro ⟨h1, h2⟩
        exact ⟨(jsUpperChar_eq_zero c).mpr h1, (ih k).mpr h2⟩

lemma leadsWith_append (p q : List Char) : leadsWith p (p ++ q) = true := by
  induction p with
  | nil => rfl
  | cons c cs ih => simp [leadsWith, ih]

/-- Folds that always keep either the accumulator or the new element stay
inside the initial-plus-list pool. -/
lemma foldl_choice_mem {α : Type} (f : α → α → α)
    (hf : ∀ x y, f x y = x ∨ f x y = y) :
    ∀ (l : List α) (b : α), l.foldl f b ∈ b :: l := by
  intro l
  induction l with
  | nil => intro b; simp
  | cons c cs ih =>
    intro b
    have h := ih (f b c)
    rcases hf b c with h' | h' <;> rw [h'] at h <;>
      simp only [List.foldl_cons] <;> rw [h'] <;>
      rcases List.mem_cons.mp h with h2 | h2 <;> simp [h2]

lemma toHex6_eq_spec (o : Option String) : toHex6 o = toHex6Spec o := by
  cases o with
  | none => rfl
  | some hex =>
    simp only [toHex6, toHex6Spec]
    generalize dropLeadingHash (trimChars hex.data) = clean
    by_cases he : clean = []
    · simp [he]
    · have hne : ¬ (clean.isEmpty = true) := by
        simpa [List.isEmpty_iff] using he
      by_cases ha : clean.all isHexDigitC
      · by_cases h6 : clean.length = 6
        · simp [hne, ha, h6]
        · by_cases h8 : clean.length = 8
          · have hdrop : (clean.drop 2).take 6 = clean.drop 2 := by
              have hd : (clean.drop 2).length = 6 := by
                simp [List.length_drop, h8]
              rw [← hd]
              exact List.take_length (clean.drop 2)
            have hlen6 : (clean.take 6).length = 6 := by
              simp [List.length_take, h8]
            have hzero : (upperChars (clean.take 6) = ("000000").data) ↔
                ((clean.take 6).all (fun c => c = '0') = true) := by
              have hrep : (("000000").data : List Char) = List.replicate 6 '0' := by decide
              rw [hrep, upperChars_eq_replicate_zero]
              rw [List.eq_replicate_iff]
              simp [hlen6, List.all_eq_true]
            rw [if_neg hne, if_pos ha, if_pos ha, if_neg h6, if_neg h6, if_pos h8, if_pos h8,
              hdrop]
            by_cases hz : (clean.take 6).all (fun c => c = '0') = true
            · rw [if_pos (hzero.mpr hz), if_pos hz]
            · rw [if_neg (fun hcon => hz (hzero.mp hcon)), if_neg hz]
          · simp [hne, ha, h6, h8]
      · simp [hne, ha]

/-- Claim C6 counterexample: the source toHex6 rejects the 3-digit shape
`#RGB` that the claim says it accepts. -/
theorem c6_toHex6_counterexample : toHex6 (some ("#ABC")) = none := by decide

/-- Claim C6 (amended): toHex6 accepts exactly the shapes `#RRGGBB`, `RRGGBB`
and the 8-digit variants with optional leading hash (but not 3-digit `#RGB`),
rejecting non-hex characters and any other length; for accepted 8-digit input
the alpha heuristic keeps the trailing six digits when the leading six are all
zero and the leading six otherwise.  Stated as equality with the clean
specification function toHex6Spec, plus sample accept/reject cases. -/
theorem c6_toHex6_amended :
    (∀ o, toHex6 o = toHex6Spec o) ∧
    toHex6 (some ("#A1B2C3")) = some ("#A1B2C3") ∧
    toHex6 (some ("a1b2c3")) = some ("#A1B2C3") ∧
    toHex6 (some ("A1B2C3D4")) = some ("#A1B2C3") ∧
    toHex6 (some ("000000D4")) = some ("#0000D4") ∧
    toHex6 (some ("#A1B2C")) = none ∧
    toHex6 (some ("#A1B2XY")) = none ∧
    toHex6 (some ("")) = none :=
  ⟨toHex6_eq_spec, by decide, by decide, by decide, by decide, by decide, by decide, by decide⟩

/-- Claim C10: isFontAllowed accepts any font that, case-insensitively after
trimming, equals an allowed font or starts with an allowed font plus one of
the separators space/hyphen/underscore and an arbitrary non-empty suffix, and
it reports no violation for missing or empty font names. -/
theorem c10_isFontAllowed_spec (fonts : List String) (f : String) :
    (isFontAllowed none fonts = true) ∧
    (isFontAllowed (some ("")) fonts = true) ∧
    ((trimChars f.data).map Char.toLower = [] → isFontAllowed (some f) fonts = true) ∧
    (∀ a ∈ fonts, (trimChars a.data).map Char.toLower ≠ [] →
      ((trimChars f.data).map Char.toLower = (trimChars a.data).map Char.toLower ∨
       ∃ sep ∈ ([' ', '-', '_'] : List Char), ∃ suffix : List Char, suffix ≠ [] ∧
         (trimChars f.data).map Char.toLower =
           (trimChars a.data).map Char.toLower ++ sep :: suffix) →
      isFontAllowed (some f) fonts = true) := by
  refine ⟨rfl, rfl, ?_, ?_⟩
  · intro h
    by_cases hf : f = ("")
    · simp [isFontAllowed, normalizeFontName, hf]
    · simp [isFontAllowed, normalizeFontName, hf, h]
  · intro a ha hne hmatch
    by_cases hf : f = ("")
    · simp [isFontAllowed, normalizeFontName, hf]
    · by_cases hnf : (trimChars f.data).map Char.toLower = []
      · simp [isFontAllowed, normalizeFontName, hf, hnf]
      · have hnorm : normalizeFontName (some f) =
            some (String.mk ((trimChars f.data).map Char.toLower)) := by
          simp [normalizeFontName, hf]
        have ha' : a ≠ ("") := by
          intro hcon
          apply hne
          rw [hcon]
          rfl
        have hna : normalizeFontName (some a) =
            some (String.mk ((trimChars a.data).map Char.toLower)) := by
          simp [normalizeFontName, ha']
        simp only [isFontAllowed, hnorm]
        rw [if_neg (fun hcon => hnf (congrArg String.data hcon))]
        rw [List.any_eq_true]
        refine ⟨a, ha, ?_⟩
        simp only [hna]
        rw [if_neg (fun hcon => hne (congrArg String.data hcon))]
        rcases hmatch with heq | ⟨sep, hsep, suffix, hsufne, heq⟩
        · have hmk : String.mk ((trimChars f.data).map Char.toLower) =
              String.mk ((trimChars a.data).map Char.toLower) := congrArg String.mk heq
          simp [hmk]
        · have hdata : (String.mk ((trimChars f.data).map Char.toLower)).data =
              ((trimChars a.data).map Char.toLower) ++ sep :: suffix := heq
          have happ : ((trimChars a.data).map Char.toLower) ++ sep :: suffix =
              (((trimChars a.data).map Char.toLower) ++ [sep]) ++ suffix := by
            simp
          simp only [List.mem_cons, List.not_mem_nil, or_false] at hsep
          rcases hsep with h1 | h1 | h1
          · subst h1
            have : leadsWith ((String.mk ((trimChars a.data).map Char.toLower)).data ++ [' '])
                (String.mk ((trimChars f.data).map Char.toLower)).data = true := by
              rw [hdata, happ]
              exact leadsWith_append _ _
            simp [this]
          · subst h1
            have : leadsWith ((String.mk ((trimChars a.data).map Char.toLower)).data ++ ['-'])
                (String.mk ((trimChars f.data).map Char.toLower)).data = true := by
              rw [hdata, happ]
              exact leadsWith_append _ _
            simp [this]
          · subst h1
            have : leadsWith ((String.mk ((trimChars a.data).map Char.toLower)).data ++ ['_'])
                (String.mk ((trimChars f.data).map Char.toLower)).data = true := by
              rw [hdata, happ]
              exact leadsWith_append _ _
            simp [this]

/-- Claim C10 witness: the style variant Arial Black of the allowed font
Arial passes the font check, and a missing font name passes as well. -/
theorem c10_isFontAllowed_witness :
    isFontAllowed (some ("Arial Black")) [("Arial")] = true ∧
    isFontAllowed none [("Arial")] = true :=
  ⟨(c10_isFontAllowed_spec [("Arial")] ("Arial Black")).2.2.2 ("Arial") (by decide) (by decide)
      (Or.inr ⟨' ', by decide, ("black").data, by decide, by decide⟩),
    (c10_isFontAllowed_spec [("Arial")] ("Arial Black")).1⟩

/-- Claim C5 counterexample: the empty object is an object in JS, so
validateBrandKit reports four field-level errors for it, not the single
root-level error the claim asserts. -/
theorem c5_validate_counterexample :
    (validateBrandKit (.jobj [])).valid = false ∧
    (validateBrandKit (.jobj [])).errors.length = 4 ∧
    containsStr ((validateBrandKit (.jobj [])).errors.map (fun e => e.1)) ("root") = false :=
  ⟨by decide, by decide, by decide⟩

/-- Claim C5 (amended): validation is total and valid exactly when no error
was collected; a non-object input yields exactly one root-level error; the
empty object (an object) yields four field errors (name, allowedColors,
allowedFonts, accessibility); a kit whose allowedColors is `["#ZZZZZZ"]` and
is otherwise well-formed yields exactly one color-field error citing invalid
hex characters. -/
theorem c5_validate_amended :
    (∀ j, (validateBrandKit j).valid = true ↔ (validateBrandKit j).errors = []) ∧
    (∀ j, isObjectLike j = false →
      validateBrandKit j =
        ⟨false, [(("root"), ("Brand kit must be a valid JSON object"))]⟩) ∧
    ((validateBrandKit (.jobj [])).valid = false ∧
      (validateBrandKit (.jobj [])).errors.map (fun e => e.1) =
        [("name"), ("allowedColors"), ("allowedFonts"), ("accessibility")]) ∧
    ((validateBrandKit zzKit).valid = false ∧
      (validateBrandKit zzKit).errors =
        [(("allowedColors[0]"),
          ("Color \"#ZZZZZZ\" is invalid: contains invalid hex characters. Only 0-9 and A-F are allowed"))]) := by
  refine ⟨?_, ?_, ⟨by decide, by decide⟩, ⟨by decide, by decide⟩⟩
  · intro j
    by_cases h : isObjectLike j
    · simp [validateBrandKit, h, List.isEmpty_iff]
    · simp only [Bool.not_eq_true] at h
      simp [validateBrandKit, h]
  · intro j h
    simp [validateBrandKit, h]

/-- Claim C5 witness: applying the amended theorem to a concrete non-object
input (the number 0) produces the single root error. -/
theorem c5_validate_witness :
    isObjectLike (.jnum 0) = false ∧
    validateBrandKit (.jnum 0) =
      ⟨false, [(("root"), ("Brand kit must be a valid JSON object"))]⟩ :=
  ⟨by decide, c5_validate_amended.2.1 (.jnum 0) (by decide)⟩

/-! ## Real-valued lemmas about luminance and contrast -/

lemma toLinear_nonneg (v : ℕ) : 0 ≤ toLinear v := by
  unfold toLinear
  dsimp only
  split_ifs with h
  · positivity
  · positivity

lemma toLinear_le_one (v : ℕ) (hv : v ≤ 255) : toLinear v ≤ 1 := by
  unfold toLinear
  dsimp only
  have hs : ((v : ℝ) / 255) ≤ 1 := by
    rw [div_le_one (by norm_num)]
    exact_mod_cast hv
  split_ifs with h
  · rw [div_le_one (by norm_num : (0 : ℝ) < 12.92)]
    linarith
  · have hbase0 : (0 : ℝ) ≤ ((v : ℝ) / 255 + 0.055) / 1.055 := by positivity
    have hbase1 : ((v : ℝ) / 255 + 0.055) / 1.055 ≤ 1 := by
      rw [div_le_one (by norm_num)]
      linarith
    exact Real.rpow_le_one hbase0 hbase1 (by norm_num)

lemma getLuminance_nonneg (r g b : ℕ) : 0 ≤ getLuminance r g b := by
  unfold getLuminance
  have hr := toLinear_nonneg r
  have hg := toLinear_nonneg g
  have hb := toLinear_nonneg b
  nlinarith

lemma getLuminance_le_one (r g b : ℕ) (hr : r ≤ 255) (hg : g ≤ 255) (hb : b ≤ 255) :
    getLuminance r g b ≤ 1 := by
  unfold getLuminance
  have h1 := toLinear_le_one r hr
  have h2 := toLinear_le_one g hg
  have h3 := toLinear_le_one b hb
  have h4 := toLinear_nonneg r
  have h5 := toLinear_nonneg g
  have h6 := toLinear_nonneg b
  nlinarith

lemma hexToRgb_le (s : String) :
    (hexToRgb s).1 ≤ 255 ∧ (hexToRgb s).2.1 ≤ 255 ∧ (hexToRgb s).2.2 ≤ 255 := by
  unfold hexToRgb
  refine ⟨?_, ?_, ?_⟩ <;> exact Nat.le_of_lt_succ (Nat.mod_lt _ (by norm_num))

lemma luminanceOf_nonneg (hex : String) : 0 ≤ luminanceOf hex :=
  getLuminance_nonneg _ _ _

lemma luminanceOf_le_one (hex : String) : luminanceOf hex ≤ 1 := by
  obtain ⟨h1, h2, h3⟩ := hexToRgb_le hex
  exact getLuminance_le_one _ _ _ h1 h2 h3

lemma contrastRatioVal_ge_one (h1 h2 : String) : 1 ≤ contrastRatioVal h1 h2 := by
  unfold contrastRatioVal
  have ha := luminanceOf_nonneg h1
  have hb := luminanceOf_nonneg h2
  have hmin : (0 : ℝ) < min (luminanceOf h1) (luminanceOf h2) + 0.05 := by
    have := le_min ha hb
    linarith
  rw [le_div_iff₀ hmin]
  have := min_le_max (a := luminanceOf h1) (b := luminanceOf h2)
  linarith

lemma contrastRatioVal_of_lum_eq (h1 h2 : String)
    (h : luminanceOf h1 = luminanceOf h2) : contrastRatioVal h1 h2 = 1 := by
  unfold contrastRatioVal
  rw [h, max_self, min_self]
  have := luminanceOf_nonneg h2
  rw [div_self (by linarith)]

lemma lum_white : luminanceOf ("#FFFFFF") = 1 := by
  unfold luminanceOf
  rw [show hexToRgb ("#FFFFFF") = (255, 255, 255) from by decide]
  unfold getLuminance toLinear
  dsimp only
  rw [if_neg (by norm_num)]
  rw [show (((255 : ℕ) : ℝ) / 255 + 0.055) / 1.055 = 1 by norm_num]
  rw [Real.one_rpow]
  norm_num

lemma lum_black : luminanceOf ("#000000") = 0 := by
  unfold luminanceOf
  rw [show hexToRgb ("#000000") = (0, 0, 0) from by decide]
  unfold getLuminance toLinear
  dsimp only
  rw [if_pos (by norm_num)]
  norm_num

lemma lum_grey_ee_ge : (0.8 : ℝ) ≤ luminanceOf ("#EEEEEE") := by
  unfold luminanceOf
  rw [show hexToRgb ("#EEEEEE") = (238, 238, 238) from by decide]
  unfold getLuminance
  have hlin : (0.8 : ℝ) ≤ toLinear 238 := by
    unfold toLinear
    dsimp only
    rw [if_neg (by norm_num)]
    have hbase : (((238 : ℕ) : ℝ) / 255 + 0.055) / 1.055 = 10081 / 10761 := by norm_num
    rw [hbase]
    have hmono : ((10081 : ℝ) / 10761) ^ (3 : ℝ) ≤ ((10081 : ℝ) / 10761) ^ (2.4 : ℝ) :=
      Real.rpow_le_rpow_of_exponent_ge (by norm_num) (by norm_num) (by norm_num)
    have hcast : ((10081 : ℝ) / 10761) ^ (3 : ℝ) = ((10081 : ℝ) / 10761) ^ (3 : ℕ) := by
      rw [show ((3 : ℝ)) = ((3 : ℕ) : ℝ) by norm_num, Real.rpow_natCast]
    have hcube : (0.8 : ℝ) ≤ ((10081 : ℝ) / 10761) ^ (3 : ℕ) := by norm_num
    calc (0.8 : ℝ) ≤ ((10081 : ℝ) / 10761) ^ (3 : ℕ) := hcube
      _ = ((10081 : ℝ) / 10761) ^ (3 : ℝ) := hcast.symm
      _ ≤ ((10081 : ℝ) / 10761) ^ (2.4 : ℝ) := hmono
  nlinarith

lemma ratio_ee_white_lt : contrastRatioVal ("#EEEEEE") ("#FFFFFF") < 4.5 := by
  unfold contrastRatioVal
  rw [lum_white]
  have hle := luminanceOf_le_one ("#EEEEEE")
  have hge := lum_grey_ee_ge
  rw [max_eq_right hle, min_eq_left hle]
  rw [div_lt_iff₀ (by linarith)]
  nlinarith

lemma ratio_black_white : contrastRatioVal ("#000000") ("#FFFFFF") = 21 := by
  unfold contrastRatioVal
  rw [lum_black, lum_white]
  norm_num

lemma ratio_white_white : contrastRatioVal ("#FFFFFF") ("#FFFFFF") = 1 :=
  contrastRatioVal_of_lum_eq _ _ rfl

lemma ratio_grey7_grey7 : contrastRatioVal ("#777777") ("#777777") = 1 :=
  contrastRatioVal_of_lum_eq _ _ rfl

/-! ## Field lemmas for calculateContrastRatio -/

lemma calc_ratio (h1 h2 : String) (o : COpts) :
    (calculateContrastRatio h1 h2 o).ratio = contrastRatioVal h1 h2 := by
  unfold calculateContrastRatio
  by_cases h : o.reportAAA <;> simp [h]

lemma calc_requiredAA (h1 h2 : String) (o : COpts) :
    (calculateContrastRatio h1 h2 o).requiredAA =
      if o.largeText ∨ o.nonText then 3.0 else 4.5 := by
  unfold calculateContrastRatio
  by_cases h : o.reportAAA <;> simp [h]

lemma calc_passesAA (h1 h2 : String) (o : COpts) :
    (calculateContrastRatio h1 h2 o).passesAA =
      (contrastRatioVal h1 h2 ≥ (if o.largeText ∨ o.nonText then 3.0 else 4.5)) := by
  unfold calculateContrastRatio
  by_cases h : o.reportAAA <;> simp [h]

lemma calc_requiredAAA (h1 h2 : String) (o : COpts) (h : o.reportAAA) :
    (calculateContrastRatio h1 h2 o).requiredAAA = some (if o.largeText then 4.5 else 7.0) := by
  unfold calculateContrastRatio
  simp [h]

lemma calc_passesAAA (h1 h2 : String) (o : COpts) (h : o.reportAAA) :
    (calculateContrastRatio h1 h2 o).passesAAA =
      some (contrastRatioVal h1 h2 ≥ (if o.largeText then 4.5 else 7.0)) := by
  unfold calculateContrastRatio
  simp [h]

lemma calc_noAAA (h1 h2 : String) (o : COpts) (h : ¬ o.reportAAA) :
    (calculateContrastRatio h1 h2 o).requiredAAA = none ∧
      (calculateContrastRatio h1 h2 o).passesAAA = none := by
  unfold calculateContrastRatio
  simp [h]

/-- Claim C7 counterexample: for a non-text (but not large-text) element with
AAA reporting requested, the source returns requiredAAA = 7.0, not the 4.5
the claim asserts for "large-text or non-text". -/
theorem c7_contrast_counterexample :
    (calculateContrastRatio ("#000000") ("#FFFFFF")
        ⟨False, True, True⟩).requiredAAA ≠ some (4.5 : ℝ) := by
  have h : (calculateContrastRatio ("#000000") ("#FFFFFF")
      ⟨False, True, True⟩).requiredAAA = some (7.0 : ℝ) := by
    rw [calc_requiredAAA _ _ _ trivial]
    norm_num
  rw [h]
  intro hcon
  have : (7.0 : ℝ) = 4.5 := Option.some.injEq _ _ ▸ hcon
  norm_num at this

/-- Claim C7 (amended): requiredAA is 3.0 exactly for large-text or non-text
options and 4.5 otherwise, with passesAA holding exactly when the ratio
reaches requiredAA; when AAA reporting is requested, requiredAAA is 4.5 for
large text only and 7.0 otherwise (non-text alone does not lower the AAA
threshold), with passesAAA holding exactly when the ratio reaches
requiredAAA; without the request both AAA fields are absent. -/
theorem c7_contrast_amended (h1 h2 : String) (o : COpts) :
    ((calculateContrastRatio h1 h2 o).ratio = contrastRatioVal h1 h2) ∧
    ((calculateContrastRatio h1 h2 o).requiredAA =
      if o.largeText ∨ o.nonText then 3.0 else 4.5) ∧
    ((calculateContrastRatio h1 h2 o).passesAA ↔
      (calculateContrastRatio h1 h2 o).ratio ≥ (calculateContrastRatio h1 h2 o).requiredAA) ∧
    (o.reportAAA →
      (calculateContrastRatio h1 h2 o).requiredAAA =
          some (if o.largeText then 4.5 else 7.0) ∧
      (calculateContrastRatio h1 h2 o).passesAAA =
          some (contrastRatioVal h1 h2 ≥ (if o.largeText then 4.5 else 7.0))) ∧
    (¬ o.reportAAA →
      (calculateContrastRatio h1 h2 o).requiredAAA = none ∧
      (calculateContrastRatio h1 h2 o).passesAAA = none) := by
  refine ⟨calc_ratio h1 h2 o, calc_requiredAA h1 h2 o, ?_, ?_, ?_⟩
  · rw [calc_passesAA, calc_ratio, calc_requiredAA]
  · intro h
    exact ⟨calc_requiredAAA h1 h2 o h, calc_passesAAA h1 h2 o h⟩
  · intro h
    exact calc_noAAA h1 h2 o h

/-- Claim C7 witness: instantiating the amended theorem at the non-text AAA
options shows requiredAAA = 7.0 there. -/
theorem c7_contrast_witness :
    (COpts.mk False True True).reportAAA ∧
    (calculateContrastRatio ("#000000") ("#FFFFFF") (COpts.mk False True True)).requiredAAA =
      some (7.0 : ℝ) := by
  refine ⟨trivial, ?_⟩
  have h := ((c7_contrast_amended ("#000000") ("#FFFFFF")
      (COpts.mk False True True)).2.2.2.1 trivial).1
  rw [h, if_neg (fun hcon => hcon)]

/-- Claim C8: the audit health score is round((total - violating)/total*100)
with violating the number of elements the audit filter flags, it is 100 for
an empty scan, and 10 scanned elements with 3 violations score 70. -/
theorem c8_healthScore (kit : BrandKit) (results : List ScannedElement) :
    (results.length ≠ 0 →
      auditHealthScore kit results =
        round ((((results.length : ℚ) -
          ((results.countP (fun el => hasViolation kit el) : ℕ) : ℚ)) /
            (results.length : ℚ)) * 100)) ∧
    (results.length = 0 → auditHealthScore kit results = 100) ∧
    auditHealthScore kitFonts elementsTen = 70 ∧
    elementsTen.length = 10 ∧
    (badElements kitFonts elementsTen).length = 3 := by
  refine ⟨?_, ?_, ?_, by decide, by rfl⟩
  · intro h
    unfold auditHealthScore badElements
    rw [if_pos (Nat.pos_of_ne_zero h), List.countP_eq_length_filter]
  · intro h
    unfold auditHealthScore
    rw [h]
    norm_num
  · unfold auditHealthScore
    rw [if_pos (by decide)]
    rw [show ((badElements kitFonts elementsTen).length : ℚ) = (3 : ℚ) from by
      norm_num [show (badElements kitFonts elementsTen).length = 3 from rfl]]
    rw [show (elementsTen.length : ℚ) = (10 : ℚ) from by
      norm_num [show elementsTen.length = 10 from rfl]]
    rw [show ((10 : ℚ) - 3) / 10 * 100 = ((70 : ℤ) : ℚ) by norm_num]
    rw [round_intCast]

/-- Claim C8 witness: the formula instance for the concrete ten-element scan. -/
theorem c8_healthScore_witness :
    elementsTen.length ≠ 0 ∧
    auditHealthScore kitFonts elementsTen =
      round ((((elementsTen.length : ℚ) -
        ((elementsTen.countP (fun el => hasViolation kitFonts el) : ℕ) : ℚ)) /
          (elementsTen.length : ℚ)) * 100) :=
  ⟨by decide, (c8_healthScore kitFonts elementsTen).1 (by decide)⟩

/-! ## Membership lemmas for the suggestion engine -/

lemma nbStep_cases (t : ℕ × ℕ × ℕ) (best : Option (String × ℤ)) (c : String) :
    nbStep t best c = best ∨ ∃ d, nbStep t best c = some (c, d) := by
  unfold nbStep
  rcases nbHexToRgb c with _ | rgb
  · exact Or.inl rfl
  · rcases best with _ | ⟨s, bd⟩
    · exact Or.inr ⟨_, rfl⟩
    · dsimp only
      split_ifs with h
      · exact Or.inr ⟨_, rfl⟩
      · exact Or.inl rfl

lemma nbFold_mem (t : ℕ × ℕ × ℕ) :
    ∀ (l : List String) (acc : Option (String × ℤ)) (p : String × ℤ),
      l.foldl (nbStep t) acc = some p → acc = some p ∨ p.1 ∈ l := by
  intro l
  induction l with
  | nil => intro acc p h; exact Or.inl h
  | cons c cs ih =>
    intro acc p h
    rcases ih (nbStep t acc c) p h with h1 | h1
    · rcases nbStep_cases t acc c with h2 | ⟨d, h2⟩
      · rw [h2] at h1
        exact Or.inl h1
      · rw [h2] at h1
        have hpc : p = (c, d) := (Option.some.inj h1).symm
        exact Or.inr (by simp [hpc])
    · exact Or.inr (List.mem_cons_of_mem _ h1)

lemma findNearestBrandColor_mem (kit : BrandKit) (i : Option String) (c : String)
    (h : findNearestBrandColor kit i = some c) : c ∈ kit.allowedColors := by
  unfold findNearestBrandColor at h
  rcases i with _ | ih
  · exact Option.noConfusion h
  · dsimp only at h
    by_cases h1 : ih = ("") ∨ kit.allowedColors = []
    · rw [if_pos h1] at h
      exact Option.noConfusion h
    · rw [if_neg h1] at h
      rcases hrgb : nbHexToRgb ih with _ | t
      · rw [hrgb] at h
        exact Option.noConfusion h
      · rw [hrgb] at h
        dsimp only at h
        rcases hfold : kit.allowedColors.foldl (nbStep t) none with _ | p
        · rw [hfold] at h
          exact Option.noConfusion h
        · rw [hfold] at h
          simp only [Option.map_some'] at h
          rcases nbFold_mem t kit.allowedColors none p hfold with h2 | h2
          · exact Option.noConfusion h2
          · rw [← Option.some.inj h]
            exact h2

lemma headI_mem_of_ne_nil {l : List String} (h : l ≠ []) : l.headI ∈ l := by
  cases l with
  | nil => exact absurd rfl h
  | cons a as => simp

lemma nearest_mem (kit : BrandKit) (i : Option String) (h : kit.allowedColors ≠ []) :
    (findNearestBrandColor kit i).getD kit.allowedColors.headI ∈ kit.allowedColors := by
  rcases hfn : findNearestBrandColor kit i with _ | c
  · simpa using headI_mem_of_ne_nil h
  · simpa using findNearestBrandColor_mem kit i c hfn

/-- Claim C9: whenever the brand kit has at least one allowed color, the
suggested color is always drawn from the allowed colors, in every branch of
determineSuggestedColor (missing fill, safe list, fallback list, last
resort, nearest brand color). -/
theorem c9_suggestion_in_palette (kit : BrandKit) (el : ScannedElement)
    (h : kit.allowedColors ≠ []) :
    determineSuggestedColor kit el ∈ kit.allowedColors := by
  unfold determineSuggestedColor
  rcases toHex6 el.fillColor with _ | currentHex
  · exact headI_mem_of_ne_nil h
  · dsimp only
    by_cases hc : suggestionCompliant kit currentHex el.containerFillColor (el.type = ("Text"))
    · rw [if_neg (fun hcon => hcon hc)]
      exact nearest_mem kit _ h
    · rw [if_pos hc]
      rcases el.containerFillColor with _ | bg
      · exact nearest_mem kit _ h
      · dsimp only
        rcases toHex6 (some bg) with _ | bgHex
        · exact nearest_mem kit _ h
        · dsimp only
          rcases hsl : safeListOf kit currentHex bgHex (el.type = ("Text")) with _ | ⟨b, rest⟩
          · dsimp only
            rcases hfb : fallbackListOf kit currentHex with _ | ⟨fb, fbrest⟩
            · dsimp only
              rcases hfind : kit.allowedColors.find? (fun color =>
                  match toHex6 (some color) with
                  | some n => !(decide (upperStr n = upperStr currentHex))
                  | none => false) with _ | dc
              · exact headI_mem_of_ne_nil h
              · exact List.mem_of_find?_eq_some hfind
            · dsimp only
              have hmem := foldl_choice_mem
                (fun best color =>
                  match toHex6 (some best), toHex6 (some color) with
                  | some bestNormalized, some colorNormalized =>
                    if ratioAgainst bgHex (el.type = ("Text")) colorNormalized >
                        ratioAgainst bgHex (el.type = ("Text")) bestNormalized then color
                    else best
                  | _, _ => best)
                (by
                  intro x y
                  dsimp only
                  rcases toHex6 (some x) with _ | xn
                  · exact Or.inl rfl
                  · rcases toHex6 (some y) with _ | yn
                    · exact Or.inl rfl
                    · dsimp only
                      split_ifs with hgt
                      · exact Or.inr rfl
                      · exact Or.inl rfl)
                fbrest fb
              have hsub : fb :: fbrest ⊆ kit.allowedColors := by
                rw [← hfb]
                intro x hx
                exact List.mem_of_mem_filter hx
              exact hsub hmem
          · dsimp only
            have hmem := foldl_choice_mem
              (fun best color =>
                if colorDistance color currentHex < colorDistance best currentHex then color
                else best)
              (by
                intro x y
                dsimp only
                split_ifs with hlt
                · exact Or.inr rfl
                · exact Or.inl rfl)
              rest b
            have hsub : b :: rest ⊆ kit.allowedColors := by
              rw [← hsl]
              intro x hx
              exact List.mem_of_mem_filter hx
            exact hsub hmem

/-- Claim C9 witness: the suggestion for the grey element against the
two-color kit is one of that kit's colors. -/
theorem c9_suggestion_witness :
    kitMono.allowedColors ≠ [] ∧
    determineSuggestedColor kitMono elGrey ∈ kitMono.allowedColors :=
  ⟨by decide, c9_suggestion_in_palette kitMono elGrey (by decide)⟩

/-! ## Optimality lemmas for the suggestion folds -/

lemma foldl_argmin_spec {α : Type} (g : α → ℝ) :
    ∀ (l : List α) (b : α),
      (l.foldl (fun best c => if g c < g best then c else best) b) ∈ b :: l ∧
      ∀ c ∈ b :: l, g (l.foldl (fun best c => if g c < g best then c else best) b) ≤ g c := by
  intro l
  induction l with
  | nil =>
    intro b
    refine ⟨by simp, ?_⟩
    intro c hc
    rw [List.mem_singleton.mp hc, List.foldl_nil]
  | cons c cs ih =>
    intro b
    simp only [List.foldl_cons]
    by_cases hlt : g c < g b
    · rw [if_pos hlt]
      rcases ih c with ⟨hmem, hbound⟩
      refine ⟨?_, ?_⟩
      · rcases List.mem_cons.mp hmem with h1 | h1 <;> simp [h1]
      · intro x hx
        rcases List.mem_cons.mp hx with h1 | h1
        · subst h1
          have h2 := hbound c (by simp)
          linarith
        · rcases List.mem_cons.mp h1 with h2 | h2
          · subst h2
            exact hbound _ (by simp)
          · exact hbound x (by simp [h2])
    · rw [if_neg hlt]
      push_neg at hlt
      rcases ih b with ⟨hmem, hbound⟩
      refine ⟨?_, ?_⟩
      · rcases List.mem_cons.mp hmem with h1 | h1 <;> simp [h1]
      · intro x hx
        rcases List.mem_cons.mp hx with h1 | h1
        · subst h1
          exact hbound _ (by simp)
        · rcases List.mem_cons.mp h1 with h2 | h2
          · subst h2
            have h2b := hbound b (by simp)
            linarith
          · exact hbound x (by simp [h2])

lemma foldl_fallback_spec (bgHex : String) (isText : Prop) :
    ∀ (l : List String) (b : String),
      (∀ c ∈ b :: l, (toHex6 (some c)).isSome) →
      ((l.foldl (fun best color =>
          match toHex6 (some best), toHex6 (some color) with
          | some bestNormalized, some colorNormalized =>
            if ratioAgainst bgHex isText colorNormalized >
                ratioAgainst bgHex isText bestNormalized then color
            else best
          | _, _ => best) b) ∈ b :: l ∧
        ∀ c ∈ b :: l, rawRatioOf bgHex isText c ≤
          rawRatioOf bgHex isText (l.foldl (fun best color =>
            match toHex6 (some best), toHex6 (some color) with
            | some bestNormalized, some colorNormalized =>
              if ratioAgainst bgHex isText colorNormalized >
                  ratioAgainst bgHex isText bestNormalized then color
              else best
            | _, _ => best) b)) := by
  intro l
  induction l with
  | nil =>
    intro b hall
    refine ⟨by simp, ?_⟩
    intro c hc
    rw [List.mem_singleton.mp hc, List.foldl_nil]
  | cons c cs ih =>
    intro b hall
    obtain ⟨bn, hbn⟩ := Option.isSome_iff_exists.mp (hall b (by simp))
    obtain ⟨cn, hcn⟩ := Option.isSome_iff_exists.mp (hall c (by simp))
    have hrawb : rawRatioOf bgHex isText b = ratioAgainst bgHex isText bn := by
      unfold rawRatioOf
      rw [hbn]
    have hrawc : rawRatioOf bgHex isText c = ratioAgainst bgHex isText cn := by
      unfold rawRatioOf
      rw [hcn]
    simp only [List.foldl_cons]
    by_cases hgt : ratioAgainst bgHex isText cn > ratioAgainst bgHex isText bn
    · rw [hbn, hcn]
      dsimp only
      rw [if_pos hgt]
      have hall' : ∀ x ∈ c :: cs, (toHex6 (some x)).isSome := by
        intro x hx
        rcases List.mem_cons.mp hx with h1 | h1
        · subst h1
          exact hall _ (by simp)
        · exact hall x (by simp [h1])
      rcases ih c hall' with ⟨hmem, hbound⟩
      refine ⟨?_, ?_⟩
      · rcases List.mem_cons.mp hmem with h1 | h1 <;> simp [h1]
      · intro x hx
        rcases List.mem_cons.mp hx with h1 | h1
        · subst h1
          have h2 := hbound c (by simp)
          rw [hrawb]
          rw [hrawc] at h2
          linarith
        · rcases List.mem_cons.mp h1 with h2 | h2
          · subst h2
            exact hbound _ (by simp)
          · exact hbound x (by simp [h2])
    · rw [hbn, hcn]
      dsimp only
      rw [if_neg hgt]
      push_neg at hgt
      have hall' : ∀ x ∈ b :: cs, (toHex6 (some x)).isSome := by
        intro x hx
        rcases List.mem_cons.mp hx with h1 | h1
        · subst h1
          exact hall _ (by simp)
        · exact hall x (by simp [h1])
      rcases ih b hall' with ⟨hmem, hbound⟩
      refine ⟨?_, ?_⟩
      · rcases List.mem_cons.mp hmem with h1 | h1 <;> simp [h1]
      · intro x hx
        rcases List.mem_cons.mp hx with h1 | h1
        · subst h1
          exact hbound _ (by simp)
        · rcases List.mem_cons.mp h1 with h2 | h2
          · subst h2
            have h2b := hbound b (by simp)
            rw [hrawc]
            rw [hrawb] at h2b
            linarith
          · exact hbound x (by simp [h2])

lemma ratioAgainst_eq (bgHex : String) (isText : Prop) (n : String) :
    ratioAgainst bgHex isText n = contrastRatioVal n bgHex :=
  calc_ratio n bgHex ⟨isText, False, False⟩

lemma contrastCompliant_eq_AA (kit : BrandKit) (cur bg : String) (isText : Prop)
    (h7 : ¬ (kit.minContrast ≥ 7.0)) :
    contrastCompliant kit cur bg isText =
      (contrastRatioVal cur bg ≥ (if isText then 3.0 else 4.5)) := by
  unfold contrastCompliant
  dsimp only
  rw [if_neg h7, calc_passesAA]
  dsimp only
  simp only [or_false]

lemma mem_safeList_iff (kit : BrandKit) (cur bgHex : String) (isText : Prop) (c : String) :
    c ∈ safeListOf kit cur bgHex isText ↔
      (c ∈ kit.allowedColors ∧ ∃ n, toHex6 (some c) = some n ∧
        upperStr n ≠ upperStr cur ∧
        ratioAgainst bgHex isText n ≥ requiredFor kit isText) := by
  unfold safeListOf
  rw [List.mem_filter]
  constructor
  · rintro ⟨hmem, hpred⟩
    refine ⟨hmem, ?_⟩
    rcases htx : toHex6 (some c) with _ | n
    · rw [htx] at hpred
      exact absurd hpred (by simp)
    · rw [htx] at hpred
      dsimp only at hpred
      by_cases h1 : upperStr n = upperStr cur
      · rw [if_pos h1] at hpred
        exact absurd hpred (by simp)
      · rw [if_neg h1] at hpred
        by_cases h2 : ratioAgainst bgHex isText n ≥ requiredFor kit isText
        · exact ⟨n, rfl, h1, h2⟩
        · rw [if_neg h2] at hpred
          exact absurd hpred (by simp)
  · rintro ⟨hmem, n, htx, hne, hge⟩
    refine ⟨hmem, ?_⟩
    rw [htx]
    dsimp only
    rw [if_neg hne, if_pos hge]

lemma mem_fallbackList_iff (kit : BrandKit) (cur : String) (c : String) :
    c ∈ fallbackListOf kit cur ↔
      (c ∈ kit.allowedColors ∧ ∃ n, toHex6 (some c) = some n ∧
        upperStr n ≠ upperStr cur) := by
  unfold fallbackListOf
  rw [List.mem_filter]
  constructor
  · rintro ⟨hmem, hpred⟩
    refine ⟨hmem, ?_⟩
    rcases htx : toHex6 (some c) with _ | n
    · rw [htx] at hpred
      exact absurd hpred (by simp)
    · rw [htx] at hpred
      dsimp only at hpred
      by_cases h1 : upperStr n = upperStr cur
      · rw [if_pos h1] at hpred
        exact absurd hpred (by simp)
      · exact ⟨n, rfl, h1⟩
  · rintro ⟨hmem, n, htx, hne⟩
    refine ⟨hmem, ?_⟩
    rw [htx]
    dsimp only
    rw [if_neg hne]

/-- Reduction of determineSuggestedColor in the contrast-violation branch. -/
lemma determineSuggestedColor_branch (kit : BrandKit) (el : ScannedElement)
    (cur bg bgHex : String)
    (hf : toHex6 el.fillColor = some cur)
    (hbg : el.containerFillColor = some bg)
    (hbgx : toHex6 (some bg) = some bgHex)
    (hnc : ¬ suggestionCompliant kit cur (some bg) (el.type = ("Text"))) :
    determineSuggestedColor kit el =
      (match safeListOf kit cur bgHex (el.type = ("Text")) with
      | b :: rest =>
        rest.foldl (fun best color =>
          if colorDistance color cur < colorDistance best cur then color
          else best) b
      | [] =>
        match fallbackListOf kit cur with
        | b :: rest =>
          rest.foldl (fun best color =>
            match toHex6 (some best), toHex6 (some color) with
            | some bestNormalized, some colorNormalized =>
              if ratioAgainst bgHex (el.type = ("Text")) colorNormalized >
                  ratioAgainst bgHex (el.type = ("Text")) bestNormalized then color
              else best
            | _, _ => best) b
        | [] =>
          match kit.allowedColors.find? (fun color =>
              match toHex6 (some color) with
              | some n => !(decide (upperStr n = upperStr cur))
              | none => false) with
          | some differentColor => differentColor
          | none => kit.allowedColors.headI) := by
  unfold determineSuggestedColor
  rw [hf]
  dsimp only
  rw [hbg, if_pos hnc]
  dsimp only
  rw [hbgx]

lemma requiredFor_mono : requiredFor kitMono (elGrey.type = ("Text")) = 4.5 := by
  unfold requiredFor
  rw [if_neg (by decide : ¬ (elGrey.type = ("Text")))]
  rfl

lemma elGrey_not_compliant :
    ¬ suggestionCompliant kitMono ("#EEEEEE") (some ("#FFFFFF")) (elGrey.type = ("Text")) := by
  unfold suggestionCompliant
  dsimp only
  rw [show toHex6 (some ("#FFFFFF")) = some ("#FFFFFF") from by decide]
  dsimp only
  rw [contrastCompliant_eq_AA kitMono ("#EEEEEE") ("#FFFFFF") _ (by norm_num [kitMono])]
  rw [if_neg (by decide : ¬ (elGrey.type = ("Text")))]
  intro hge
  have hlt := ratio_ee_white_lt
  linarith

lemma safeList_mono_grey :
    safeListOf kitMono ("#EEEEEE") ("#FFFFFF") (elGrey.type = ("Text")) = [("#000000")] := by
  unfold safeListOf
  rw [show kitMono.allowedColors = [("#000000"), ("#FFFFFF")] from rfl]
  simp only [List.filter_cons, List.filter_nil]
  rw [show toHex6 (some ("#000000")) = some ("#000000") from by decide]
  rw [show toHex6 (some ("#FFFFFF")) = some ("#FFFFFF") from by decide]
  dsimp only
  rw [if_neg (by decide : ¬ (upperStr ("#000000") = upperStr ("#EEEEEE")))]
  rw [if_neg (by decide : ¬ (upperStr ("#FFFFFF") = upperStr ("#EEEEEE")))]
  rw [if_pos (show ratioAgainst ("#FFFFFF") (elGrey.type = ("Text")) ("#000000") ≥
      requiredFor kitMono (elGrey.type = ("Text")) by
    rw [ratioAgainst_eq, ratio_black_white, requiredFor_mono]
    norm_num)]
  rw [if_neg (show ¬ (ratioAgainst ("#FFFFFF") (elGrey.type = ("Text")) ("#FFFFFF") ≥
      requiredFor kitMono (elGrey.type = ("Text"))) by
    rw [ratioAgainst_eq, ratio_white_white, requiredFor_mono]
    norm_num)]
  simp

lemma suggest_mono_grey : determineSuggestedColor kitMono elGrey = ("#000000") := by
  rw [determineSuggestedColor_branch kitMono elGrey ("#EEEEEE") ("#FFFFFF") ("#FFFFFF")
    (by decide) (by decide) (by decide) elGrey_not_compliant]
  rw [safeList_mono_grey]
  rfl

/-- Claim C1: in the contrast-violation branch with known background, the
safe list is exactly the allowed colors other than the current fill whose
ratio against the background meets the required ratio; when non-empty the
suggestion is a safe-list member of minimal RGB distance to the current
fill; when empty the suggestion is a fallback-list member (allowed, not the
current fill) of maximal contrast ratio against the background; and for the
two-color kit with background white and fill #EEEEEE the suggestion is
exactly #000000. -/
theorem c1_suggestColor_spec (kit : BrandKit) (el : ScannedElement) (cur bg bgHex : String)
    (hf : toHex6 el.fillColor = some cur)
    (hbg : el.containerFillColor = some bg)
    (hbgx : toHex6 (some bg) = some bgHex)
    (hnc : ¬ suggestionCompliant kit cur (some bg) (el.type = ("Text"))) :
    (∀ c, c ∈ safeListOf kit cur bgHex (el.type = ("Text")) ↔
      (c ∈ kit.allowedColors ∧ ∃ n, toHex6 (some c) = some n ∧
        upperStr n ≠ upperStr cur ∧
        ratioAgainst bgHex (el.type = ("Text")) n ≥ requiredFor kit (el.type = ("Text")))) ∧
    (safeListOf kit cur bgHex (el.type = ("Text")) ≠ [] →
      determineSuggestedColor kit el ∈ safeListOf kit cur bgHex (el.type = ("Text")) ∧
      ∀ c ∈ safeListOf kit cur bgHex (el.type = ("Text")),
        colorDistance (determineSuggestedColor kit el) cur ≤ colorDistance c cur) ∧
    (safeListOf kit cur bgHex (el.type = ("Text")) = [] →
      fallbackListOf kit cur ≠ [] →
      determineSuggestedColor kit el ∈ fallbackListOf kit cur ∧
      ∀ c ∈ fallbackListOf kit cur,
        rawRatioOf bgHex (el.type = ("Text")) c ≤
          rawRatioOf bgHex (el.type = ("Text")) (determineSuggestedColor kit el)) ∧
    determineSuggestedColor kitMono elGrey = ("#000000") := by
  refine ⟨fun c => mem_safeList_iff kit cur bgHex _ c, ?_, ?_, suggest_mono_grey⟩
  · intro hne
    rcases hsl : safeListOf kit cur bgHex (el.type = ("Text")) with _ | ⟨b, rest⟩
    · exact absurd hsl hne
    · have hred := determineSuggestedColor_branch kit el cur bg bgHex hf hbg hbgx hnc
      rw [hsl] at hred
      dsimp only at hred
      rw [hred]
      exact foldl_argmin_spec (fun color => colorDistance color cur) rest b
  · intro hsl hne
    rcases hfb : fallbackListOf kit cur with _ | ⟨b, rest⟩
    · exact absurd hfb hne
    · have hred := determineSuggestedColor_branch kit el cur bg bgHex hf hbg hbgx hnc
      rw [hsl, hfb] at hred
      dsimp only at hred
      rw [hred]
      have hall : ∀ x ∈ b :: rest, (toHex6 (some x)).isSome := by
        intro x hx
        have hxm := (mem_fallbackList_iff kit cur x).mp (by rw [hfb]; exact hx)
        rcases hxm with ⟨_, n, htx, _⟩
        rw [htx]
        rfl
      exact foldl_fallback_spec bgHex (el.type = ("Text")) rest b hall

/-- Claim C1 witness: the hypotheses hold for the grey element over the
two-color kit and the suggestion there is #000000. -/
theorem c1_suggestColor_witness :
    toHex6 elGrey.fillColor = some ("#EEEEEE") ∧
    elGrey.containerFillColor = some ("#FFFFFF") ∧
    toHex6 (some ("#FFFFFF")) = some ("#FFFFFF") ∧
    (¬ suggestionCompliant kitMono ("#EEEEEE") (some ("#FFFFFF")) (elGrey.type = ("Text"))) ∧
    determineSuggestedColor kitMono elGrey = ("#000000") :=
  ⟨by decide, by decide, by decide, elGrey_not_compliant,
    (c1_suggestColor_spec kitMono elGrey ("#EEEEEE") ("#FFFFFF") ("#FFFFFF")
      (by decide) (by decide) (by decide) elGrey_not_compliant).2.2.2⟩

/-! ## Lemmas about the best-contrast scan of the unfixable loop -/

lemma bestBrand_fold_ub (bgHex : String) (isText : Prop) :
    ∀ (l : List String) (acc : ℝ × String),
      acc.1 ≤ (l.foldl (fun best brandHex =>
        match toHex6 (some brandHex) with
        | none => best
        | some normalizedBrand =>
          if best.1 < ratioAgainst bgHex isText normalizedBrand then
            (ratioAgainst bgHex isText normalizedBrand, brandHex)
          else best) acc).1 ∧
      ∀ c ∈ l, ∀ n, toHex6 (some c) = some n →
        ratioAgainst bgHex isText n ≤ (l.foldl (fun best brandHex =>
          match toHex6 (some brandHex) with
          | none => best
          | some normalizedBrand =>
            if best.1 < ratioAgainst bgHex isText normalizedBrand then
              (ratioAgainst bgHex isText normalizedBrand, brandHex)
            else best) acc).1 := by
  intro l
  induction l with
  | nil =>
    intro acc
    exact ⟨le_refl _, by simp⟩
  | cons c cs ih =>
    intro acc
    simp only [List.foldl_cons]
    rcases htx : toHex6 (some c) with _ | n
    · rcases ih acc with ⟨h1, h2⟩
      refine ⟨h1, ?_⟩
      intro x hx m hm
      rcases List.mem_cons.mp hx with hx1 | hx1
      · subst hx1
        rw [htx] at hm
        exact Option.noConfusion hm
      · exact h2 x hx1 m hm
    · dsimp only
      by_cases hlt : acc.1 < ratioAgainst bgHex isText n
      · rw [if_pos hlt]
        rcases ih (ratioAgainst bgHex isText n, c) with ⟨h1, h2⟩
        refine ⟨le_of_lt (lt_of_lt_of_le hlt h1), ?_⟩
        intro x hx m hm
        rcases List.mem_cons.mp hx with hx1 | hx1
        · subst hx1
          rw [htx] at hm
          rw [← Option.some.inj hm]
          exact h1
        · exact h2 x hx1 m hm
      · rw [if_neg hlt]
        push_neg at hlt
        rcases ih acc with ⟨h1, h2⟩
        refine ⟨h1, ?_⟩
        intro x hx m hm
        rcases List.mem_cons.mp hx with hx1 | hx1
        · subst hx1
          rw [htx] at hm
          rw [← Option.some.inj hm]
          exact le_trans hlt h1
        · exact h2 x hx1 m hm

lemma bestBrand_fold_mem (bgHex : String) (isText : Prop) :
    ∀ (l : List String) (acc : ℝ × String),
      (l.foldl (fun best brandHex =>
        match toHex6 (some brandHex) with
        | none => best
        | some normalizedBrand =>
          if best.1 < ratioAgainst bgHex isText normalizedBrand then
            (ratioAgainst bgHex isText normalizedBrand, brandHex)
          else best) acc) = acc ∨
      ∃ c ∈ l, ∃ n, toHex6 (some c) = some n ∧
        (l.foldl (fun best brandHex =>
          match toHex6 (some brandHex) with
          | none => best
          | some normalizedBrand =>
            if best.1 < ratioAgainst bgHex isText normalizedBrand then
              (ratioAgainst bgHex isText normalizedBrand, brandHex)
            else best) acc) = (ratioAgainst bgHex isText n, c) := by
  intro l
  induction l with
  | nil => intro acc; exact Or.inl rfl
  | cons c cs ih =>
    intro acc
    simp only [List.foldl_cons]
    rcases htx : toHex6 (some c) with _ | n
    · rcases ih acc with h1 | ⟨x, hx, m, hm, hfold⟩
      · exact Or.inl h1
      · exact Or.inr ⟨x, by simp [hx], m, hm, hfold⟩
    · dsimp only
      by_cases hlt : acc.1 < ratioAgainst bgHex isText n
      · rw [if_pos hlt]
        rcases ih (ratioAgainst bgHex isText n, c) with h1 | ⟨x, hx, m, hm, hfold⟩
        · exact Or.inr ⟨c, by simp, n, htx, h1⟩
        · exact Or.inr ⟨x, by simp [hx], m, hm, hfold⟩
      · rw [if_neg hlt]
        rcases ih acc with h1 | ⟨x, hx, m, hm, hfold⟩
        · exact Or.inl h1
        · exact Or.inr ⟨x, by simp [hx], m, hm, hfold⟩

lemma bestBrand_ub (kit : BrandKit) (bgHex : String) (isText : Prop) :
    ∀ c ∈ kit.allowedColors, ∀ n, toHex6 (some c) = some n →
      ratioAgainst bgHex isText n ≤ (bestBrand kit bgHex isText).1 :=
  (bestBrand_fold_ub bgHex isText kit.allowedColors (0, kit.allowedColors.headI)).2

lemma ratioAgainst_ge_one (bgHex : String) (isText : Prop) (n : String) :
    1 ≤ ratioAgainst bgHex isText n := by
  rw [ratioAgainst_eq]
  exact contrastRatioVal_ge_one n bgHex

lemma bestBrand_achieves (kit : BrandKit) (bgHex : String) (isText : Prop)
    (hne : kit.allowedColors ≠ [])
    (hp : ∀ c ∈ kit.allowedColors, (toHex6 (some c)).isSome) :
    ∃ c ∈ kit.allowedColors, ∃ n, toHex6 (some c) = some n ∧
      bestBrand kit bgHex isText = (ratioAgainst bgHex isText n, c) := by
  rcases bestBrand_fold_mem bgHex isText kit.allowedColors (0, kit.allowedColors.headI)
    with h1 | h1
  · exfalso
    rcases List.exists_mem_of_ne_nil kit.allowedColors hne with ⟨c0, hc0⟩
    obtain ⟨n0, hn0⟩ := Option.isSome_iff_exists.mp (hp c0 hc0)
    have hub := bestBrand_ub kit bgHex isText c0 hc0 n0 hn0
    unfold bestBrand at hub
    rw [h1] at hub
    have := ratioAgainst_ge_one bgHex isText n0
    dsimp only at hub
    linarith
  · exact h1

/-- Reduction of the unfixable-contrast loop body in the palette-compliant,
contrast-failing scope. -/
lemma unfixableFor_eq (kit : BrandKit) (el : ScannedElement) (f bgRaw cur bgH : String)
    (h1 : el.fillColor = some f) (h2 : el.containerFillColor = some bgRaw)
    (h3 : toHex6 (some f) = some cur) (h4 : toHex6 (some bgRaw) = some bgH)
    (hbc : isBrandCompliantB kit (takeStr 7 cur) = true)
    (hcc : ¬ contrastCompliant kit (takeStr 7 cur) bgH (el.type = ("Text"))) :
    unfixableFor kit el =
      (if (bestBrand kit bgH (el.type = ("Text"))).1 < requiredFor kit (el.type = ("Text"))
      then some
        { element := el
          currentRatio := contrastRatioVal (takeStr 7 cur) bgH
          bestPossibleRatio := (bestBrand kit bgH (el.type = ("Text"))).1
          bestBrandColor := (bestBrand kit bgH (el.type = ("Text"))).2
          requiredRatio := requiredFor kit (el.type = ("Text"))
          wcagLevel := if kit.minContrast ≥ 7.0 then ("AAA") else ("AA")
          isCurrentBest :=
            match toHex6 (some (bestBrand kit bgH (el.type = ("Text"))).2) with
            | some bn => upperStr bn = upperStr (takeStr 7 cur)
            | none => False }
      else none) := by
  unfold unfixableFor
  rw [h1, h2]
  dsimp only
  rw [h3, h4]
  dsimp only
  rw [if_pos ⟨hbc, hcc⟩]

lemma bestBrand_single :
    bestBrand kitSingle ("#777777") (elSingle.type = ("Text")) = (1, ("#777777")) := by
  unfold bestBrand
  rw [show kitSingle.allowedColors = [("#777777")] from rfl]
  simp only [List.foldl_cons, List.foldl_nil]
  rw [show toHex6 (some ("#777777")) = some ("#777777") from by decide]
  dsimp only
  rw [ratioAgainst_eq, ratio_grey7_grey7]
  rw [if_pos (by norm_num : ((0, (("#777777") : String)).1 : ℝ) < 1)]

lemma elSingle_not_compliant :
    ¬ contrastCompliant kitSingle (takeStr 7 ("#777777")) ("#777777")
      (elSingle.type = ("Text")) := by
  rw [contrastCompliant_eq_AA kitSingle _ _ _ (by norm_num [kitSingle])]
  rw [if_neg (by decide : ¬ (elSingle.type = ("Text")))]
  rw [show takeStr 7 ("#777777") = ("#777777") from by decide]
  rw [ratio_grey7_grey7]
  norm_num

lemma requiredFor_single : requiredFor kitSingle (elSingle.type = ("Text")) = 4.5 := by
  unfold requiredFor
  rw [if_neg (by decide : ¬ (elSingle.type = ("Text")))]
  rfl

lemma unfixableFor_single_eval :
    ∃ w, unfixableFor kitSingle elSingle = some w ∧ w.isCurrentBest := by
  have hred := unfixableFor_eq kitSingle elSingle ("#777777") ("#777777") ("#777777")
    ("#777777") rfl rfl (by decide) (by decide) (by decide) elSingle_not_compliant
  rw [bestBrand_single, requiredFor_single] at hred
  rw [if_pos (by norm_num : ((1 : ℝ), (("#777777") : String)).1 < 4.5)] at hred
  refine ⟨_, hred, ?_⟩
  dsimp only
  rw [show toHex6 (some ((1 : ℝ), (("#777777") : String)).2) = some ("#777777") from by decide]
  decide

/-- Claim C2: in the palette-compliant, contrast-failing scope with parseable
allowed colors, the unfixable loop produces a finding exactly when the best
ratio achievable by any allowed color stays strictly below the required
ratio; the best ratio bounds every allowed color's ratio and is achieved by
the recorded best color; the finding carries the current ratio, the best
ratio, the best color, the required ratio, and isCurrentBest holds exactly
when the best color normalizes to the current fill; and for the one-color
kit over its own background exactly one finding with isCurrentBest is
produced. -/
theorem c2_unfixable_spec (kit : BrandKit) (el : ScannedElement) (f bgRaw cur bgH : String)
    (h1 : el.fillColor = some f) (h2 : el.containerFillColor = some bgRaw)
    (h3 : toHex6 (some f) = some cur) (h4 : toHex6 (some bgRaw) = some bgH)
    (hbc : isBrandCompliantB kit (takeStr 7 cur) = true)
    (hcc : ¬ contrastCompliant kit (takeStr 7 cur) bgH (el.type = ("Text")))
    (hne : kit.allowedColors ≠ [])
    (hp : ∀ c ∈ kit.allowedColors, (toHex6 (some c)).isSome) :
    ((unfixableFor kit el).isSome ↔
      (bestBrand kit bgH (el.type = ("Text"))).1 < requiredFor kit (el.type = ("Text"))) ∧
    (∀ c ∈ kit.allowedColors, ∀ n, toHex6 (some c) = some n →
      ratioAgainst bgH (el.type = ("Text")) n ≤ (bestBrand kit bgH (el.type = ("Text"))).1) ∧
    (∃ c ∈ kit.allowedColors, ∃ n, toHex6 (some c) = some n ∧
      bestBrand kit bgH (el.type = ("Text")) = (ratioAgainst bgH (el.type = ("Text")) n, c)) ∧
    (∀ w, unfixableFor kit el = some w →
      w.element = el ∧
      w.currentRatio = contrastRatioVal (takeStr 7 cur) bgH ∧
      w.bestPossibleRatio = (bestBrand kit bgH (el.type = ("Text"))).1 ∧
      w.bestBrandColor = (bestBrand kit bgH (el.type = ("Text"))).2 ∧
      w.requiredRatio = requiredFor kit (el.type = ("Text")) ∧
      (w.isCurrentBest ↔
        ∃ bn, toHex6 (some (bestBrand kit bgH (el.type = ("Text"))).2) = some bn ∧
          upperStr bn = upperStr (takeStr 7 cur))) ∧
    ((findUnfixable kitSingle [elSingle]).length = 1 ∧
      ∀ w ∈ findUnfixable kitSingle [elSingle], w.isCurrentBest) := by
  have hred := unfixableFor_eq kit el f bgRaw cur bgH h1 h2 h3 h4 hbc hcc
  refine ⟨?_, bestBrand_ub kit bgH (el.type = ("Text")),
    bestBrand_achieves kit bgH (el.type = ("Text")) hne hp, ?_, ?_⟩
  · rw [hred]
    by_cases hlt : (bestBrand kit bgH (el.type = ("Text"))).1 <
        requiredFor kit (el.type = ("Text"))
    · simp [hlt]
    · simp [hlt]
  · intro w hw
    rw [hred] at hw
    by_cases hlt : (bestBrand kit bgH (el.type = ("Text"))).1 <
        requiredFor kit (el.type = ("Text"))
    · rw [if_pos hlt] at hw
      have hw' := (Option.some.inj hw).symm
      subst hw'
      refine ⟨rfl, rfl, rfl, rfl, rfl, ?_⟩
      dsimp only
      rcases htx : toHex6 (some (bestBrand kit bgH (el.type = ("Text"))).2) with _ | bn
      · simp
      · simp
    · rw [if_neg hlt] at hw
      exact Option.noConfusion hw
  · obtain ⟨w, hw, hwb⟩ := unfixableFor_single_eval
    constructor
    · simp [findUnfixable, List.filterMap_cons, hw]
    · intro w' hw'
      simp only [findUnfixable, List.filterMap_cons, hw, List.filterMap_nil] at hw'
      rcases List.mem_singleton.mp hw' with h
      rw [h]
      exact hwb

/-- Claim C2 witness: the hypotheses hold for the single-color kit over its
own background, and the loop reports exactly one finding, with the current
color the best one. -/
theorem c2_unfixable_witness :
    elSingle.fillColor = some ("#777777") ∧
    elSingle.containerFillColor = some ("#777777") ∧
    toHex6 (some ("#777777")) = some ("#777777") ∧
    isBrandCompliantB kitSingle (takeStr 7 ("#777777")) = true ∧
    (¬ contrastCompliant kitSingle (takeStr 7 ("#777777")) ("#777777")
      (elSingle.type = ("Text"))) ∧
    kitSingle.allowedColors ≠ [] ∧
    ((findUnfixable kitSingle [elSingle]).length = 1 ∧
      ∀ w ∈ findUnfixable kitSingle [elSingle], w.isCurrentBest) :=
  ⟨rfl, rfl, by decide, by decide, elSingle_not_compliant, by decide,
    (c2_unfixable_spec kitSingle elSingle ("#777777") ("#777777") ("#777777") ("#777777")
      rfl rfl (by decide) (by decide) (by decide) elSingle_not_compliant (by decide)
      (by decide)).2.2.2.2⟩

lemma hasBetterBrandColorB_iff (kit : BrandKit) (cur bgH : String) (isText : Prop) (r : ℝ) :
    hasBetterBrandColorB kit cur bgH isText r = true ↔
      HasBetterBrandColor kit cur bgH isText r := by
  unfold hasBetterBrandColorB HasBetterBrandColor
  rw [List.any_eq_true]
  constructor
  · rintro ⟨c, hc, hpred⟩
    rcases htx : toHex6 (some c) with _ | n
    · rw [htx] at hpred
      exact absurd hpred (by simp)
    · rw [htx] at hpred
      dsimp only at hpred
      by_cases hne : upperStr n = upperStr cur
      · rw [if_pos hne] at hpred
        exact absurd hpred (by simp)
      · rw [if_neg hne] at hpred
        by_cases hok : ratioAgainst bgH isText n ≥ requiredFor kit isText ∨
            ratioAgainst bgH isText n > r + 0.5
        · exact ⟨c, hc, n, htx, hne, hok⟩
        · rw [if_neg hok] at hpred
          exact absurd hpred (by simp)
  · rintro ⟨c, hc, n, htx, hne, hok⟩
    refine ⟨c, hc, ?_⟩
    rw [htx]
    dsimp only
    rw [if_neg hne, if_pos hok]

/-- Claim C4: for a palette-compliant fill that fails the contrast check
against a known background (and no font violation), the audit flags the
element exactly when some other allowed color reaches the required ratio or
exceeds the current ratio by more than 0.5. -/
theorem c4_contrast_suppression (kit : BrandKit) (el : ScannedElement)
    (f bg cur bgH : String)
    (h1 : el.fillColor = some f) (h2 : toHex6 (some f) = some cur)
    (h3 : el.containerFillColor = some bg) (h4 : toHex6 (some bg) = some bgH)
    (hbc : isBrandCompliantB kit (takeStr 7 cur) = true)
    (hcc : ¬ contrastCompliant kit (takeStr 7 cur) bgH (el.type = ("Text")))
    (hfont : isFontAllowed el.fontName kit.allowedFonts = true) :
    (hasViolation kit el = true ↔
      HasBetterBrandColor kit (takeStr 7 cur) bgH (el.type = ("Text"))
        (contrastRatioVal (takeStr 7 cur) bgH)) := by
  unfold hasViolation
  rw [h1]
  dsimp only
  rw [h2]
  dsimp only
  rw [h3]
  dsimp only
  rw [h4]
  dsimp only
  rw [hbc, if_neg hcc]
  have hfv : (match el.fontName with
      | none => false
      | some fn => !(isFontAllowed (some fn) kit.allowedFonts)) = false := by
    rcases hfn : el.fontName with _ | fn
    · rfl
    · rw [hfn] at hfont
      dsimp only
      rw [hfont]
      rfl
  rw [hfv]
  simp only [Bool.not_true, Bool.false_or, if_true, Bool.or_false]
  exact hasBetterBrandColorB_iff kit (takeStr 7 cur) bgH (el.type = ("Text"))
    (contrastRatioVal (takeStr 7 cur) bgH)

lemma elGrey_greys_not_compliant :
    ¬ contrastCompliant kitGreys (takeStr 7 ("#EEEEEE")) ("#FFFFFF")
      (elGrey.type = ("Text")) := by
  rw [contrastCompliant_eq_AA kitGreys _ _ _ (by norm_num [kitGreys])]
  rw [if_neg (by decide : ¬ (elGrey.type = ("Text")))]
  rw [show takeStr 7 ("#EEEEEE") = ("#EEEEEE") from by decide]
  intro hge
  have hlt := ratio_ee_white_lt
  linarith

lemma requiredFor_greys : requiredFor kitGreys (elGrey.type = ("Text")) = 4.5 := by
  unfold requiredFor
  rw [if_neg (by decide : ¬ (elGrey.type = ("Text")))]
  rfl

/-- Claim C4 witness: the grey fill over white background in the two-grey
kit is flagged because black reaches the required ratio. -/
theorem c4_contrast_witness :
    isBrandCompliantB kitGreys (takeStr 7 ("#EEEEEE")) = true ∧
    isFontAllowed elGrey.fontName kitGreys.allowedFonts = true ∧
    hasViolation kitGreys elGrey = true :=
  ⟨by decide, rfl,
    (c4_contrast_suppression kitGreys elGrey ("#EEEEEE") ("#FFFFFF") ("#EEEEEE") ("#FFFFFF")
      rfl (by decide) rfl (by decide) (by decide) elGrey_greys_not_compliant rfl).mpr
      ⟨("#000000"), by decide, ("#000000"), by decide, by decide,
        Or.inl (by
          rw [ratioAgainst_eq, ratio_black_white, requiredFor_greys]
          norm_num)⟩⟩

/-! ## Lemmas for the snapshot state machine -/

lemma fixAll_nil (kit : BrandKit) (s : AppState) : fixAll kit [] s = s := by
  unfold fixAll
  rw [if_pos rfl]

lemma runBatches_noops (kit : BrandKit) (s : AppState) :
    ∀ (noops : List (List ScannedElement)), (∀ b ∈ noops, b = []) →
      runBatches kit s noops = s := by
  intro noops
  induction noops generalizing s with
  | nil => intro h; rfl
  | cons b bs ih =>
    intro h
    have hb : b = [] := h b (by simp)
    subst hb
    show runBatches kit (fixAll kit [] s) bs = s
    rw [fixAll_nil]
    exact ih s (fun x hx => h x (by simp [hx]))

lemma fixAll_snap (kit : BrandKit) (viol : List ScannedElement) (s : AppState)
    (h : viol ≠ []) :
    (fixAll kit viol s).snap = some (captureSnapshot viol s.doc) := by
  unfold fixAll
  rw [if_neg h]

lemma restoreEntry_other (d : Doc) (e : String × (Option String × Option String))
    (i : String) (hne : i ≠ e.1) : restoreEntry d e i = d i := by
  unfold restoreEntry setDocColor setDocFont
  rcases e with ⟨id0, c0, f0⟩
  rcases c0 with _ | c <;> rcases f0 with _ | f <;> dsimp only <;> split_ifs <;>
    simp [hne]

lemma restoreFold_not_mem (entries : List (String × (Option String × Option String)))
    (i : String) :
    ∀ (d : Doc), i ∉ entries.map Prod.fst → (entries.foldl restoreEntry d) i = d i := by
  induction entries with
  | nil => intro d _; rfl
  | cons x rest ih =>
    intro d hni
    simp only [List.map_cons, List.mem_cons] at hni
    push_neg at hni
    rw [List.foldl_cons]
    rw [ih (restoreEntry d x) hni.2]
    exact restoreEntry_other d x i hni.1

lemma restoreEntry_self (d : Doc) (e : String × (Option String × Option String))
    (c f : String) (hc : e.2.1 = some c) (hf : e.2.2 = some f)
    (hc' : c ≠ ("")) (hf' : f ≠ ("")) :
    restoreEntry d e e.1 = (some c, some f) := by
  unfold restoreEntry setDocColor setDocFont
  rw [hc, hf]
  dsimp only
  rw [if_neg hc', if_neg hf']
  simp

lemma restoreFold_at (entries : List (String × (Option String × Option String)))
    (e : String × (Option String × Option String)) (c f : String) :
    ∀ (d : Doc), e ∈ entries → (entries.map Prod.fst).Nodup →
      e.2.1 = some c → e.2.2 = some f → c ≠ ("") → f ≠ ("") →
      (entries.foldl restoreEntry d) e.1 = (some c, some f) := by
  induction entries with
  | nil => intro d he; exact absurd he (by simp)
  | cons x rest ih =>
    intro d he hnd hc hf hc' hf'
    simp only [List.map_cons, List.nodup_cons] at hnd
    rw [List.foldl_cons]
    rcases List.mem_cons.mp he with h1 | h1
    · subst h1
      rw [restoreFold_not_mem rest e.1 (restoreEntry d e) hnd.1]
      exact restoreEntry_self d e c f hc hf hc' hf'
    · exact ih (restoreEntry d x) h1 hnd.2 hc hf hc' hf'

/-- Claim C3: an effective batch snapshots every fixed element's pre-batch
color and font; no-op batches change neither document nor snapshot; a
subsequent undo clears the snapshot (idle) and writes the recorded non-null
color/font pairs back, so an undo after any number of no-op batches restores
the pre-first-batch state. -/
theorem c3_snapshot_undo (kit : BrandKit) (s : AppState) (viol : List ScannedElement)
    (noops : List (List ScannedElement))
    (hne : viol ≠ [])
    (hnoop : ∀ b ∈ noops, b = [])
    (hnd : (viol.map ScannedElement.id).Nodup) :
    ((fixAll kit viol s).snap = some (viol.map (fun v => (v.id, s.doc v.id)))) ∧
    (runBatches kit (fixAll kit viol s) noops = fixAll kit viol s) ∧
    ((undoAll (runBatches kit (fixAll kit viol s) noops)).snap = none) ∧
    (∀ v ∈ viol, ∀ c f, s.doc v.id = (some c, some f) → c ≠ ("") → f ≠ ("") →
      (undoAll (runBatches kit (fixAll kit viol s) noops)).doc v.id = (some c, some f)) := by
  have hrun : runBatches kit (fixAll kit viol s) noops = fixAll kit viol s :=
    runBatches_noops kit (fixAll kit viol s) noops hnoop
  have hsnap : (fixAll kit viol s).snap = some (captureSnapshot viol s.doc) :=
    fixAll_snap kit viol s hne
  have hundo : undoAll (fixAll kit viol s) =
      { doc := (captureSnapshot viol s.doc).foldl restoreEntry (fixAll kit viol s).doc
        snap := none } := by
    unfold undoAll
    rw [hsnap]
  refine ⟨hsnap, hrun, ?_, ?_⟩
  · rw [hrun, hundo]
  · intro v hv c f hdoc hc' hf'
    rw [hrun, hundo]
    dsimp only
    have hmem : (v.id, s.doc v.id) ∈ captureSnapshot viol s.doc :=
      List.mem_map_of_mem (fun v => (v.id, s.doc v.id)) hv
    have hids : (captureSnapshot viol s.doc).map Prod.fst = viol.map ScannedElement.id := by
      unfold captureSnapshot
      rw [List.map_map]
      rfl
    have hnd' : ((captureSnapshot viol s.doc).map Prod.fst).Nodup := by
      rw [hids]
      exact hnd
    exact restoreFold_at (captureSnapshot viol s.doc) (v.id, s.doc v.id) c f
      (fixAll kit viol s).doc hmem hnd' (by rw [hdoc]) (by rw [hdoc]) hc' hf'

/-- Claim C3 witness: fixing two elements, running a no-op batch, and undoing
restores both recorded pre-batch color/font pairs and returns to idle. -/
theorem c3_snapshot_witness :
    (([elA, elB] : List ScannedElement) ≠ []) ∧
    ((undoAll (runBatches kitMono (fixAll kitMono [elA, elB]
        ⟨docPair, none⟩) [[]])).snap = none) ∧
    ((undoAll (runBatches kitMono (fixAll kitMono [elA, elB]
        ⟨docPair, none⟩) [[]])).doc elA.id = (some ("#123456"), some ("Papyrus"))) ∧
    ((undoAll (runBatches kitMono (fixAll kitMono [elA, elB]
        ⟨docPair, none⟩) [[]])).doc elB.id = (some ("#654321"), some ("Chalkboard"))) := by
  have hth := c3_snapshot_undo kitMono ⟨docPair, none⟩ [elA, elB] [[]]
    (by decide) (by decide) (by decide)
  refine ⟨by decide, hth.2.2.1, ?_, ?_⟩
  · exact hth.2.2.2 elA (by simp) ("#123456") ("Papyrus") (by decide) (by decide) (by decide)
  · exact hth.2.2.2 elB (by simp) ("#654321") ("Chalkboard") (by decide) (by decide) (by decide)
